import Mathlib

/-!
# Client-side health checking (`health/client.go`)

A shallow embedding of `clientHealthCheck`, the retry loop that drives the
gRPC health-checking protocol for one connection, together with theorems
about the sequence of calls it makes to its collaborators.

The function is a loop around callbacks (`backoffFunc`, `ctx.Err`,
`setConnectivityState`, `newStream`, and the stream methods `SendMsg`,
`CloseSend`, `RecvMsg`).  The collaborators are an explicit environment
`Env σ` threaded through a world state `σ`; the engine is a step function
on configurations (one step per loop iteration) that records every call it
makes, with the arguments passed and the values returned, in a trace.  The
trace is tied to the environment by `clientHealthCheck_replay`: performing
the calls of the trace on the environment, in order, leaves the world in
which the run ends.

The file also covers `wrappedCC.RemoveSubConn` of the same package and
`Replace` of package `testlib` (namespace `Testlib`).
-/

namespace Health

/-! ## Data model -/

/-- Modelled from the spec: the RPC status codes of package `codes`, which is
not part of the sources at hand.  The spec singles out `Unimplemented`; the
other codes are the standard gRPC ones. -/
inductive Code where
  | OK | Canceled | Unknown | InvalidArgument | DeadlineExceeded | NotFound
  | AlreadyExists | PermissionDenied | ResourceExhausted | FailedPrecondition
  | Aborted | OutOfRange | Unimplemented | Internal | Unavailable | DataLoss
  | Unauthenticated
  deriving DecidableEq, Repr

/-- Modelled from the spec: the connectivity classification reported to the
sink, "one of Connecting, Ready, TransientFailure" (package `connectivity`
is not part of the sources at hand). -/
inductive ConnectivityState where
  | Connecting | Ready | TransientFailure
  deriving DecidableEq, Repr

/-- Modelled from the spec: the status carried by a health-check response,
"one of an enumerated status (UNKNOWN, SERVING, NOT_SERVING,
SERVICE_UNKNOWN)" (the generated package `grpc_health_v1` is not part of the
sources at hand). -/
inductive ServingStatus where
  | UNKNOWN | SERVING | NOT_SERVING | SERVICE_UNKNOWN
  deriving DecidableEq, Repr

/-- What `newStream` hands back as its `interface{}` result: a value that
satisfies `grpc.ClientStream` (identified by a handle), the nil interface,
or a value of some other type. -/
inductive RawStream where
  | nil
  | clientStream (id : Nat)
  | other (descr : String)
  deriving DecidableEq, Repr

/-- Go `error` values that occur in `clientHealthCheck`.  A nil `error` is
`none : Option GoError`.  The three `errorf` constructors are the values
built by the three `fmt.Errorf` calls of the function; they keep the format
string and the formatted argument. -/
inductive GoError where
  | eof
  | status (code : Code) (desc : String)
  | other (text : String)
  | errorfErr (format : String) (arg : GoError)
  | errorfStatus (format : String) (arg : ServingStatus)
  | errorfRaw (format : String) (arg : RawStream)
  deriving DecidableEq, Repr

/-- Modelled from the spec: `status.Code` (package `status` is not part of
the sources at hand): `OK` for a nil error, the carried code for an error
that carries an RPC status, `Unknown` for every other error. -/
def statusCode : Option GoError → Code
  | none => .OK
  | some (.status c _) => c
  | some _ => .Unknown

/-- The constant `healthCheckMethod`. -/
def healthCheckMethod : String := "/grpc.health.v1.Health/Watch"

/-- Format string of the `fmt.Errorf` call for an unexpected stream type. -/
def fmtWantClientStream : String :=
  "newStream returned %v (type %T); want grpc.ClientStream"

/-- Format string of the `fmt.Errorf` call for a failed `RecvMsg`. -/
def fmtRecvError : String :=
  "connection active but received health check RPC error: %v"

/-- Format string of the `fmt.Errorf` call for a non-serving response. -/
def fmtNotServing : String :=
  "connection active but health check failed. status=%s"

/-- One call made by `clientHealthCheck`, with its arguments and results. -/
inductive Event where
  | backoff (retries : Nat) (ok : Bool)
  | ctxErr (err : Option GoError)
  | report (st : ConnectivityState) (err : Option GoError)
  | newStream (method : String) (rawS : RawStream) (err : Option GoError)
  | sendMsg (s : Nat) (service : String) (err : Option GoError)
  | closeSend (s : Nat)
  | recvMsg (s : Nat) (err : Option GoError) (status : ServingStatus)
  deriving DecidableEq, Repr

/-- The collaborators of `clientHealthCheck`, as transitions of a world
state `σ`: the package variable `backoffFunc`, `ctx.Err()`, the two function
parameters `setConnectivityState` and `newStream`, and the three stream
methods (a stream is named by the handle `newStream` returned).  `recvMsg`
returns the error together with the status field of `resp` after the call. -/
structure Env (σ : Type) where
  backoffFunc : σ → Nat → Bool × σ
  ctxErr : σ → Option GoError × σ
  setConnectivityState : σ → ConnectivityState → Option GoError → σ
  newStream : σ → String → (RawStream × Option GoError) × σ
  sendMsg : σ → Nat → String → Option GoError × σ
  closeSend : σ → Nat → σ
  recvMsg : σ → Nat → (Option GoError × ServingStatus) × σ

/-- Control point of `clientHealthCheck`: at the head of the outer loop
(label `retryConnection`) with the current `tryCnt`, at the head of the
inner receive loop on stream `s`, or returned with an error value. -/
inductive Loc where
  | retryConnection (tryCnt : Nat)
  | receiving (tryCnt : Nat) (s : Nat)
  | returned (err : Option GoError)
  deriving DecidableEq, Repr

/-- A configuration: control point and world state. -/
structure Config (σ : Type) where
  loc : Loc
  world : σ

/-- The value returned by the function, once it has returned. -/
def Config.result {σ : Type} (c : Config σ) : Option (Option GoError) :=
  match c.loc with
  | .returned e => some e
  | _ => none

/-! ## The engine -/

variable {σ : Type}

/-- Lines 195-199, with `s` a `grpc.ClientStream`: send the request; on nil
or `io.EOF` close the send side and enter the receive loop, on any other
error continue with the outer loop. -/
def sendStep (env : Env σ) (service : String) (tryCnt s : Nat) (w : σ) :
    List Event × Config σ :=
  let r := env.sendMsg w s service
  match r.1 with
  | none =>
    ([.sendMsg s service none, .closeSend s], ⟨.receiving tryCnt s, env.closeSend r.2 s⟩)
  | some .eof =>
    ([.sendMsg s service (some .eof), .closeSend s],
      ⟨.receiving tryCnt s, env.closeSend r.2 s⟩)
  | some e => ([.sendMsg s service (some e)], ⟨.retryConnection tryCnt, r.2⟩)

/-- Lines 179-199, after `tryCnt++` (the argument is the incremented
counter): the cancellation check, the `Connecting` report, `newStream`, the
type assertion and the send. -/
def openStep (env : Env σ) (service : String) (tryCnt : Nat) (w : σ) :
    List Event × Config σ :=
  let c := env.ctxErr w
  match c.1 with
  | some e => ([.ctxErr (some e)], ⟨.returned none, c.2⟩)
  | none =>
    let w1 := env.setConnectivityState c.2 .Connecting none
    let o := env.newStream w1 healthCheckMethod
    let pre : List Event :=
      [.ctxErr none, .report .Connecting none, .newStream healthCheckMethod o.1.1 o.1.2]
    match o.1.2 with
    | some _ => (pre, ⟨.retryConnection tryCnt, o.2⟩)
    | none =>
      match o.1.1 with
      | .clientStream s =>
        let r := sendStep env service tryCnt s o.2
        (pre ++ r.1, r.2)
      | raw =>
        (pre ++ [.report .Ready none],
          ⟨.returned (some (.errorfRaw fmtWantClientStream raw)),
            env.setConnectivityState o.2 .Ready none⟩)

/-- One iteration of the outer loop (lines 172-199) up to the point where it
continues, returns or enters the receive loop.  `backoffFunc` is called only
when `tryCnt > 0`.  `tryCnt` is a Go `int`, modelled as a natural number: it
grows by one per attempt, so it stays far below the end of the `int` range in
any run that can be carried out. -/
def connectStep (env : Env σ) (service : String) (tryCnt : Nat) (w : σ) :
    List Event × Config σ :=
  if tryCnt > 0 then
    let b := env.backoffFunc w (tryCnt - 1)
    if b.1 then
      let r := openStep env service (tryCnt + 1) b.2
      (.backoff (tryCnt - 1) true :: r.1, r.2)
    else
      ([.backoff (tryCnt - 1) false], ⟨.returned none, b.2⟩)
  else
    openStep env service (tryCnt + 1) w

/-- One iteration of the receive loop (lines 202-224). -/
def recvStep (env : Env σ) (tryCnt s : Nat) (w : σ) : List Event × Config σ :=
  let r := env.recvMsg w s
  let err := r.1.1
  let st := r.1.2
  if statusCode err = .Unimplemented then
    ([.recvMsg s err st, .report .Ready none],
      ⟨.returned err, env.setConnectivityState r.2 .Ready none⟩)
  else
    match err with
    | some e =>
      ([.recvMsg s (some e) st,
          .report .TransientFailure (some (.errorfErr fmtRecvError e))],
        ⟨.retryConnection tryCnt,
          env.setConnectivityState r.2 .TransientFailure
            (some (.errorfErr fmtRecvError e))⟩)
    | none =>
      if st = .SERVING then
        ([.recvMsg s none st, .report .Ready none],
          ⟨.receiving 0 s, env.setConnectivityState r.2 .Ready none⟩)
      else
        ([.recvMsg s none st,
            .report .TransientFailure (some (.errorfStatus fmtNotServing st))],
          ⟨.receiving 0 s,
            env.setConnectivityState r.2 .TransientFailure
              (some (.errorfStatus fmtNotServing st))⟩)

/-- One loop iteration from a configuration: the calls made and the
configuration reached. -/
def step (env : Env σ) (service : String) (c : Config σ) : List Event × Config σ :=
  match c.loc with
  | .retryConnection k => connectStep env service k c.world
  | .receiving k s => recvStep env k s c.world
  | .returned _ => ([], c)

/-- Run at most `fuel` loop iterations from `c`: the trace of calls and the
configuration reached. -/
def exec (env : Env σ) (service : String) : Nat → Config σ → List Event × Config σ
  | 0, c => ([], c)
  | n + 1, c =>
    match c.loc with
    | .returned _ => ([], c)
    | _ =>
      let r := step env service c
      let r2 := exec env service n r.2
      (r.1 ++ r2.1, r2.2)

/-- The function `clientHealthCheck(ctx, newStream, setConnectivityState,
service)`, run for at most `fuel` loop iterations from world `w`, starting
with `tryCnt := 0` at the head of the outer loop. -/
def clientHealthCheck (env : Env σ) (service : String) (fuel : Nat) (w : σ) :
    List Event × Config σ :=
  exec env service fuel ⟨.retryConnection 0, w⟩

/-! ## Scripted environments, used to run the engine on concrete inputs -/

/-- One scripted answer of a collaborator. -/
inductive Answer where
  | backoff (ok : Bool)
  | ctx (err : Option GoError)
  | stream (rawS : RawStream) (err : Option GoError)
  | send (err : Option GoError)
  | recv (err : Option GoError) (status : ServingStatus)
  deriving DecidableEq, Repr

/-- The environment that answers from a script, one entry per call that
returns a value.  When the script is exhausted, or its next entry is for a
different call, the context reports cancellation and every other call fails
with a plain error. -/
def scripted : Env (List Answer) where
  backoffFunc := fun w _ =>
    match w with
    | .backoff b :: rest => (b, rest)
    | _ => (false, [])
  ctxErr := fun w =>
    match w with
    | .ctx e :: rest => (e, rest)
    | _ => (some (.other "context canceled"), [])
  setConnectivityState := fun w _ _ => w
  newStream := fun w _ =>
    match w with
    | .stream r e :: rest => ((r, e), rest)
    | _ => ((.nil, some (.other "script exhausted")), [])
  sendMsg := fun w _ _ =>
    match w with
    | .send e :: rest => (e, rest)
    | _ => (some (.other "script exhausted"), [])
  closeSend := fun w _ => w
  recvMsg := fun w _ =>
    match w with
    | .recv e st :: rest => ((e, st), rest)
    | _ => ((some (.other "script exhausted"), .UNKNOWN), [])

/-! ## The calls of a trace, performed on the environment -/

/-- Perform on the environment, in world `w`, the call that an event
records, with the arguments it records: the world the call leaves, or `none`
if the call does not return what the event records. -/
def Event.perform (env : Env σ) (w : σ) : Event → Option σ
  | .backoff k ok =>
    if (env.backoffFunc w k).1 = ok then some (env.backoffFunc w k).2 else none
  | .ctxErr e => if (env.ctxErr w).1 = e then some (env.ctxErr w).2 else none
  | .report st e => some (env.setConnectivityState w st e)
  | .newStream m raw err =>
    if (env.newStream w m).1 = (raw, err) then some (env.newStream w m).2 else none
  | .sendMsg s svc err =>
    if (env.sendMsg w s svc).1 = err then some (env.sendMsg w s svc).2 else none
  | .closeSend s => some (env.closeSend w s)
  | .recvMsg s err st =>
    if (env.recvMsg w s).1 = (err, st) then some (env.recvMsg w s).2 else none

/-- Perform the calls of a trace on the environment, in order, from world
`w`: the world they leave, or `none` if some call does not return what the
trace records. -/
def replay (env : Env σ) (w : σ) : List Event → Option σ
  | [] => some w
  | ev :: rest => (ev.perform env w).bind fun w1 => replay env w1 rest

/-- The environment that answers from a script like `scripted` and keeps, as
second component of its world, the list of all calls it has received. -/
def recording : Env (List Answer × List Event) where
  backoffFunc := fun w k =>
    ((scripted.backoffFunc w.1 k).1,
      ((scripted.backoffFunc w.1 k).2, w.2 ++ [.backoff k (scripted.backoffFunc w.1 k).1]))
  ctxErr := fun w =>
    ((scripted.ctxErr w.1).1, ((scripted.ctxErr w.1).2, w.2 ++ [.ctxErr (scripted.ctxErr w.1).1]))
  setConnectivityState := fun w st e => (w.1, w.2 ++ [.report st e])
  newStream := fun w m =>
    ((scripted.newStream w.1 m).1,
      ((scripted.newStream w.1 m).2,
        w.2 ++ [.newStream m (scripted.newStream w.1 m).1.1 (scripted.newStream w.1 m).1.2]))
  sendMsg := fun w s svc =>
    ((scripted.sendMsg w.1 s svc).1,
      ((scripted.sendMsg w.1 s svc).2, w.2 ++ [.sendMsg s svc (scripted.sendMsg w.1 s svc).1]))
  closeSend := fun w s => (w.1, w.2 ++ [.closeSend s])
  recvMsg := fun w s =>
    ((scripted.recvMsg w.1 s).1,
      ((scripted.recvMsg w.1 s).2,
        w.2 ++ [.recvMsg s (scripted.recvMsg w.1 s).1.1 (scripted.recvMsg w.1 s).1.2]))

/-! ## The shape of a loop iteration, independent of the environment -/

/-- The calls of lines 195-199 and the control point reached after them. -/
inductive SendShape (k s : Nat) (service : String) : List Event → Loc → Prop where
  | sent : SendShape k s service [.sendMsg s service none, .closeSend s] (.receiving k s)
  | sentEOF :
      SendShape k s service [.sendMsg s service (some .eof), .closeSend s] (.receiving k s)
  | failed (e : GoError) (he : e ≠ .eof) :
      SendShape k s service [.sendMsg s service (some e)] (.retryConnection k)

/-- The calls of lines 179-199 and the control point reached after them;
`k` is the counter after `tryCnt++`. -/
inductive OpenShape (k : Nat) (service : String) : List Event → Loc → Prop where
  | cancelled (e : GoError) : OpenShape k service [.ctxErr (some e)] (.returned none)
  | openFailed (raw : RawStream) (e : GoError) :
      OpenShape k service
        [.ctxErr none, .report .Connecting none, .newStream healthCheckMethod raw (some e)]
        (.retryConnection k)
  | wrongType (raw : RawStream) (hraw : ∀ s, raw ≠ .clientStream s) :
      OpenShape k service
        [.ctxErr none, .report .Connecting none, .newStream healthCheckMethod raw none,
          .report .Ready none]
        (.returned (some (.errorfRaw fmtWantClientStream raw)))
  | opened (s : Nat) (es : List Event) (l : Loc) (h : SendShape k s service es l) :
      OpenShape k service
        ([.ctxErr none, .report .Connecting none,
          .newStream healthCheckMethod (.clientStream s) none] ++ es) l

/-- The calls of one loop iteration started at a control point, and the
control point reached after it: every path through lines 172-199 (without a
backoff call when `tryCnt = 0`, after a backoff call when `tryCnt > 0`) and
every path through lines 202-224. -/
inductive StepShape (service : String) : Loc → List Event → Loc → Prop where
  | firstCancelled (e : GoError) :
      StepShape service (.retryConnection 0) [.ctxErr (some e)] (.returned none)
  | firstOpenFailed (raw : RawStream) (e : GoError) :
      StepShape service (.retryConnection 0)
        [.ctxErr none, .report .Connecting none, .newStream healthCheckMethod raw (some e)]
        (.retryConnection 1)
  | firstWrongType (raw : RawStream) (hraw : ∀ s, raw ≠ .clientStream s) :
      StepShape service (.retryConnection 0)
        [.ctxErr none, .report .Connecting none, .newStream healthCheckMethod raw none,
          .report .Ready none]
        (.returned (some (.errorfRaw fmtWantClientStream raw)))
  | firstSendFailed (s : Nat) (e : GoError) (he : e ≠ .eof) :
      StepShape service (.retryConnection 0)
        [.ctxErr none, .report .Connecting none,
          .newStream healthCheckMethod (.clientStream s) none, .sendMsg s service (some e)]
        (.retryConnection 1)
  | firstEntered (s : Nat) (err : Option GoError) (herr : err = none ∨ err = some .eof) :
      StepShape service (.retryConnection 0)
        [.ctxErr none, .report .Connecting none,
          .newStream healthCheckMethod (.clientStream s) none, .sendMsg s service err,
          .closeSend s]
        (.receiving 1 s)
  | backoffCancelled (k : Nat) (hk : 0 < k) :
      StepShape service (.retryConnection k) [.backoff (k - 1) false] (.returned none)
  | retryCancelled (k : Nat) (hk : 0 < k) (e : GoError) :
      StepShape service (.retryConnection k) [.backoff (k - 1) true, .ctxErr (some e)]
        (.returned none)
  | retryOpenFailed (k : Nat) (hk : 0 < k) (raw : RawStream) (e : GoError) :
      StepShape service (.retryConnection k)
        [.backoff (k - 1) true, .ctxErr none, .report .Connecting none,
          .newStream healthCheckMethod raw (some e)]
        (.retryConnection (k + 1))
  | retryWrongType (k : Nat) (hk : 0 < k) (raw : RawStream)
      (hraw : ∀ s, raw ≠ .clientStream s) :
      StepShape service (.retryConnection k)
        [.backoff (k - 1) true, .ctxErr none, .report .Connecting none,
          .newStream healthCheckMethod raw none, .report .Ready none]
        (.returned (some (.errorfRaw fmtWantClientStream raw)))
  | retrySendFailed (k : Nat) (hk : 0 < k) (s : Nat) (e : GoError) (he : e ≠ .eof) :
      StepShape service (.retryConnection k)
        [.backoff (k - 1) true, .ctxErr none, .report .Connecting none,
          .newStream healthCheckMethod (.clientStream s) none, .sendMsg s service (some e)]
        (.retryConnection (k + 1))
  | retryEntered (k : Nat) (hk : 0 < k) (s : Nat) (err : Option GoError)
      (herr : err = none ∨ err = some .eof) :
      StepShape service (.retryConnection k)
        [.backoff (k - 1) true, .ctxErr none, .report .Connecting none,
          .newStream healthCheckMethod (.clientStream s) none, .sendMsg s service err,
          .closeSend s]
        (.receiving (k + 1) s)
  | unimplemented (k s : Nat) (e : GoError) (st : ServingStatus)
      (he : statusCode (some e) = .Unimplemented) :
      StepShape service (.receiving k s) [.recvMsg s (some e) st, .report .Ready none]
        (.returned (some e))
  | recvFailed (k s : Nat) (e : GoError) (st : ServingStatus)
      (he : statusCode (some e) ≠ .Unimplemented) :
      StepShape service (.receiving k s)
        [.recvMsg s (some e) st, .report .TransientFailure (some (.errorfErr fmtRecvError e))]
        (.retryConnection k)
  | serving (k s : Nat) :
      StepShape service (.receiving k s) [.recvMsg s none .SERVING, .report .Ready none]
        (.receiving 0 s)
  | notServing (k s : Nat) (st : ServingStatus) (hst : st ≠ .SERVING) :
      StepShape service (.receiving k s)
        [.recvMsg s none st, .report .TransientFailure (some (.errorfStatus fmtNotServing st))]
        (.receiving 0 s)

/-- A sequence of loop iterations: the concatenated calls between two
control points. -/
inductive RunShape (service : String) : Loc → List Event → Loc → Prop where
  | done (l : Loc) : RunShape service l [] l
  | iter (l l1 l2 : Loc) (es tr : List Event) (h : StepShape service l es l1)
      (hr : RunShape service l1 tr l2) : RunShape service l (es ++ tr) l2

/-! ## Definitions used to state properties of traces -/

/-- A script in which the second attempt is answered with Unimplemented. -/
def scriptUnimplemented : List Answer :=
  [.ctx none, .stream .nil (some (.other "unavailable")), .backoff true, .ctx none,
    .stream (.clientStream 7) none, .send none, .recv none .NOT_SERVING,
    .recv (some (.status .Unimplemented "unknown service")) .UNKNOWN]

/-- All ways to split a list around one of its elements. -/
def splits {α : Type} : List α → List (List α × α × List α)
  | [] => []
  | a :: l => ([], a, l) :: (splits l).map (fun p => (a :: p.1, p.2.1, p.2.2))

/-- A `newStream` call that returned no error and a handle that is not a
`grpc.ClientStream`. -/
def Event.protocolViolation : Event → Bool
  | .newStream _ (.clientStream _) none => false
  | .newStream _ _ none => true
  | _ => false

/-- A report of `TransientFailure`. -/
def Event.isTransientFailure : Event → Bool
  | .report .TransientFailure _ => true
  | _ => false

/-- A script in which `newStream` fails, then `SendMsg` fails, then a stream
is entered. -/
def scriptOpenAndSendFail : List Answer :=
  [.ctx none, .stream .nil (some (.other "unavailable")), .backoff true, .ctx none,
    .stream (.clientStream 3) none, .send (some (.other "broken pipe")), .backoff true,
    .ctx none, .stream (.clientStream 4) none, .send none]

/-- A script in which a stream delivers two messages and then fails, the
next stream fails before any message, and the context is cancelled after
the backoff wait. -/
def scriptServingThenFail : List Answer :=
  [.ctx none, .stream (.clientStream 1) none, .send none, .recv none .SERVING,
    .recv none .NOT_SERVING, .recv (some (.other "reset")) .UNKNOWN, .ctx none,
    .stream (.clientStream 2) none, .send (some .eof),
    .recv (some (.other "reset")) .UNKNOWN, .backoff true,
    .ctx (some (.other "context canceled"))]

/-- The retry count passed by a `backoffFunc` call. -/
def Event.backoffArg : Event → Option Nat
  | .backoff k _ => some k
  | _ => none

/-- The retry counts passed to `backoffFunc` in a trace, in order. -/
def backoffArgs (tr : List Event) : List Nat :=
  tr.filterMap Event.backoffArg

/-- A call of `newStream`: the start of a stream-open attempt. -/
def Event.isNewStream : Event → Bool
  | .newStream _ _ _ => true
  | _ => false

/-- The number of stream-open attempts in a trace. -/
def attempts (tr : List Event) : Nat :=
  tr.countP Event.isNewStream

/-- A `RecvMsg` call that returned nil: a response message was received. -/
def Event.isMessage : Event → Bool
  | .recvMsg _ none _ => true
  | _ => false

/-- The value of `tryCnt` at a control point (0 once returned). -/
def Loc.counter : Loc → Nat
  | .retryConnection k => k
  | .receiving k _ => k
  | .returned _ => 0

/-- A call of `setConnectivityState`. -/
def Event.isReport : Event → Bool
  | .report _ _ => true
  | _ => false

/-- A report of `Connecting`. -/
def Event.isConnecting : Event → Bool
  | .report .Connecting _ => true
  | _ => false

/-- A script in which the second `newStream` call returns, without error, a
value that is not a `grpc.ClientStream`. -/
def scriptWrongType : List Answer :=
  [.ctx none, .stream .nil (some (.other "unavailable")), .backoff true, .ctx none,
    .stream (.other "chan int") none]

/-! ## The balancer wrapper: `wrappedCC.RemoveSubConn` -/

/-- A Go map of `wrappedCC`, keyed by subconnection (subconnections,
producers and cleanup functions are named by numbers).  `none` is "no
entry"; an entry holds a value that may itself be nil (`some none`), as a Go
`*producer` or `func()` can be.  A nil Go map reads and deletes like the
empty map, so it is the map that is `none` everywhere. -/
abbrev GoMap : Type := Nat → Option (Option Nat)

/-- The index expression `m[k]`: the entry's value, or the zero value (nil)
when there is no entry. -/
def GoMap.index (m : GoMap) (k : Nat) : Option Nat :=
  (m k).getD none

/-- The builtin `delete(m, k)`. -/
def GoMap.delete (m : GoMap) (k : Nat) : GoMap :=
  fun j => if j = k then none else m j

/-- The two bookkeeping maps of the struct `wrappedCC` (lines 78-82). -/
structure wrappedCC where
  subConnProducers : GoMap
  subConnClosers : GoMap

/-- A call made by `RemoveSubConn`: of a cleanup function, or of the embedded
`ClientConn.RemoveSubConn`. -/
inductive Call where
  | closer (id : Nat)
  | removeSubConn (sc : Nat)
  deriving DecidableEq, Repr

/-- The method `(w *wrappedCC) RemoveSubConn(sc)` (lines 96-103): the calls
it makes, in order, and the maps afterwards.  The cleanup function and the
embedded `ClientConn` are collaborators that return and do not touch the
wrapper's maps (the function recorded by `NewSubConn` is the closure of
lines 138-141, which cancels a context and waits for the producer). -/
def wrappedCC.RemoveSubConn (w : wrappedCC) (sc : Nat) : List Call × wrappedCC :=
  match w.subConnClosers.index sc with
  | some closer =>
    ([.closer closer, .removeSubConn sc],
      ⟨w.subConnProducers.delete sc, w.subConnClosers.delete sc⟩)
  | none => ([.removeSubConn sc], w)

/-- The assignment `m[k] = v`. -/
def GoMap.insert (m : GoMap) (k : Nat) (v : Option Nat) : GoMap :=
  fun j => if j = k then some v else m j

/-- The wrapper as `Build` makes it (line 58): both maps nil. -/
def wrappedCC.built : wrappedCC :=
  ⟨fun _ => none, fun _ => none⟩

/-- The two map writes of `NewSubConn` (lines 91-92), the only writes to the
maps in the package: `w.subConnClosers[sc] = close` and
`w.subConnProducers[sc] = p`.  (In the source the maps are never made, so
these writes cannot even succeed; letting them succeed only adds states.) -/
def wrappedCC.record (w : wrappedCC) (sc : Nat) (p close : Option Nat) : wrappedCC :=
  ⟨w.subConnProducers.insert sc p, w.subConnClosers.insert sc close⟩

/-- The states the wrapper can be in: as built, after the map writes of a
`NewSubConn` that recorded a cleanup function (the function returned with
the producer; the builder of lines 128-142 returns a function literal, never
nil), and after a `RemoveSubConn`. -/
inductive wrappedCC.Reachable : wrappedCC → Prop where
  | built : wrappedCC.Reachable wrappedCC.built
  | newSubConn (w : wrappedCC) (sc : Nat) (p : Option Nat) (close : Nat)
      (h : wrappedCC.Reachable w) : wrappedCC.Reachable (w.record sc p (some close))
  | removeSubConn (w : wrappedCC) (sc : Nat) (h : wrappedCC.Reachable w) :
      wrappedCC.Reachable (w.RemoveSubConn sc).2

/-- The two maps are kept in step: a subconnection for which no cleanup
function is recorded has no entry in either map. -/
def wrappedCC.paired (w : wrappedCC) : Prop :=
  ∀ k, w.subConnClosers.index k = none →
    w.subConnClosers k = none ∧ w.subConnProducers k = none

/-- A wrapper state with producers and cleanup functions recorded for
subconnections 5 and 6. -/
def wccTwoSubConns : wrappedCC :=
  ⟨fun k => if k = 5 then some (some 1) else if k = 6 then some (some 2) else none,
    fun k => if k = 5 then some (some 11) else if k = 6 then some (some 12) else none⟩

end Health

namespace Testlib

/-! ## `testlib.Replace` and the part of package `reflect` it uses -/

/-- The underlying type of a non-interface type of the model: `int`,
`string`, `func() int`, or another type literal (told apart by a number). -/
inductive Underlying where
  | int
  | string
  | funcInt
  | literal (id : Nat)
  deriving DecidableEq, Repr

/-- Go types of the variables and values of the model: the predeclared
`int` and `string`, the unnamed type `func() int`, another unnamed type
literal, a defined type `type T U` (told apart by a number, with its
underlying type), and the interface type `interface{}`. -/
inductive GoType where
  | int
  | string
  | funcInt
  | literal (id : Nat)
  | defined (name : Nat) (u : Underlying)
  | emptyInterface
  deriving DecidableEq, Repr

/-- Whether a type is an interface type. -/
def GoType.isInterface : GoType → Bool
  | .emptyInterface => true
  | _ => false

/-- Whether a type has a name (is predeclared or defined), as opposed to a
type literal. -/
def GoType.hasName : GoType → Bool
  | .int => true
  | .string => true
  | .defined _ _ => true
  | _ => false

/-- The underlying type of a non-interface type. -/
def GoType.underlying : GoType → Option Underlying
  | .int => some .int
  | .string => some .string
  | .funcInt => some .funcInt
  | .literal id => some (.literal id)
  | .defined _ u => some u
  | .emptyInterface => none

/-- The representation of a value of non-interface type: an integer, a
string, a `func() int` (nil or a function), or that of another type. -/
inductive Rep where
  | int (n : Int)
  | string (s : String)
  | func (f : Option (Unit → Int))
  | bits (n : Nat)

/-- A Go value of non-interface type: its type and its representation. -/
structure Dyn where
  ty : GoType
  rep : Rep

/-- An `int` value. -/
def Dyn.int (n : Int) : Dyn :=
  ⟨.int, .int n⟩

/-- A `string` value. -/
def Dyn.string (s : String) : Dyn :=
  ⟨.string, .string s⟩

/-- A value of type `func() int`: nil or a function. -/
def Dyn.funcInt (f : Option (Unit → Int)) : Dyn :=
  ⟨.funcInt, .func f⟩

/-- Calling a function value; `none` for a value that cannot be called
(not a function, or a nil function). -/
def Dyn.call (d : Dyn) : Option Int :=
  match d.rep with
  | .func (some f) => some (f ())
  | _ => none

/-- An `interface{}` value: nil, or a value of non-interface type. -/
abbrev Interface : Type := Option Dyn

/-- The variable `*src`: its static type and what it holds.  A variable of
interface type holds nil (`none`) or a value of non-interface type; a
variable of non-interface type holds a value of that type. -/
structure Var where
  ty : GoType
  content : Option Dyn

/-- A variable holds what its static type allows. -/
def Var.wellTyped (v : Var) : Prop :=
  match v.content with
  | none => v.ty.isInterface = true
  | some d => if v.ty.isInterface then d.ty.isInterface = false else d.ty = v.ty

/-- A `reflect.Value` that is not addressable: the zero Value (`none`) or a
Value holding a value of non-interface type.  The addressable Value
`srcVal.Elem()` is the variable itself. -/
abbrev Value : Type := Option Dyn

/-- The panics of `reflect.Value.Set`: "reflect: call of reflect.Value.Set on
zero Value", and "reflect.Set: value of type X is not assignable to type
Y". -/
inductive GoPanic where
  | setOnZeroValue
  | notAssignable (x y : GoType)
  deriving DecidableEq, Repr

/-- The function `reflect.ValueOf`: the zero Value for a nil interface,
otherwise a Value holding the interface's dynamic value. -/
def ValueOf (i : Interface) : Value :=
  i

/-- The method `Interface` on the addressable Value of a variable
(`srcVal.Elem().Interface()`): the variable's current value as an
`interface{}`; for a variable of interface type that is the value inside
the interface, nil if it holds nil. -/
def Var.Interface (v : Var) : Interface :=
  v.content

/-- The function `directlyAssignable` of package `reflect`, for a value of
type `x` and a destination of type `y`: the types are identical, or they
are not both named and have identical underlying types. -/
def directlyAssignable (x y : GoType) : Bool :=
  x = y || (!(x.hasName && y.hasName) && x.underlying.isSome && x.underlying = y.underlying)

/-- The function `implements` of package `reflect`, for a value of
non-interface type `x` and a destination of type `y`: `y` is an interface
type whose methods `x` has; every type has the methods of `interface{}`. -/
def implements (_x y : GoType) : Bool :=
  y.isInterface

/-- Whether a value of type `x` can be assigned to a variable of type `y`. -/
def assignable (x y : GoType) : Bool :=
  directlyAssignable x y || implements x y

/-- The method `Set` on the addressable Value of a variable
(`srcVal.Elem().Set(x)`): panics on the zero Value; stores a directly
assignable value as a value of the variable's type; stores a value that
implements the variable's interface type as it is; panics otherwise. -/
def Var.Set (v : Var) (x : Value) : Except GoPanic Var :=
  match x with
  | none => .error .setOnZeroValue
  | some d =>
    if directlyAssignable d.ty v.ty then .ok { v with content := some ⟨v.ty, d.rep⟩ }
    else if implements d.ty v.ty then .ok { v with content := some d }
    else .error (.notAssignable d.ty v.ty)

/-- The function `Replace(src, val)` (lines 30-35), with `src` a pointer to
the variable given as first argument.  It returns the variable after the
assignment and the function `restore`, which acts on the variable as it is
when `restore` is called; a panic is an error. -/
def Replace (src : Var) (val : Interface) :
    Except GoPanic (Var × (Var → Except GoPanic Var)) :=
  let origVal := ValueOf src.Interface
  match src.Set (ValueOf val) with
  | .error p => .error p
  | .ok src1 => .ok (src1, fun cur => cur.Set origVal)

/-- `Replace(src, val)` followed at once by `restore()`: the variable after
`Replace` and the outcome of `restore`. -/
def replaceThenRestore (src : Var) (val : Interface) :
    Except GoPanic (Var × Except GoPanic Var) :=
  match Replace src val with
  | .error p => .error p
  | .ok r => .ok (r.1, r.2 r.1)

/-- The variable `i := 123` of `TestReplaceInt`. -/
def varInt : Var :=
  ⟨.int, some (.int 123)⟩

/-- The variable `oldF := func() int { return 123 }` of `TestReplaceFunc`. -/
def varFunc : Var :=
  ⟨.funcInt, some (.funcInt (some fun _ => 123))⟩

/-- A variable `var x interface{}` that holds nil. -/
def varNilInterface : Var :=
  ⟨.emptyInterface, none⟩

/-- A variable `var x interface{} = 5`. -/
def varInterfaceFive : Var :=
  ⟨.emptyInterface, some (.int 5)⟩

end Testlib

namespace Health

/-! ## The engine follows the shapes -/

theorem sendStep_shape (env : Env σ) (service : String) (k s : Nat) (w : σ) :
    SendShape k s service (sendStep env service k s w).1 (sendStep env service k s w).2.loc := by
  unfold sendStep
  generalize env.sendMsg w s service = r
  obtain ⟨err, w1⟩ := r
  rcases err with _ | e
  · exact .sent
  · cases e
    case eof => exact .sentEOF
    all_goals exact .failed _ (by simp)

theorem openStep_shape (env : Env σ) (service : String) (k : Nat) (w : σ) :
    OpenShape k service (openStep env service k w).1 (openStep env service k w).2.loc := by
  unfold openStep
  generalize env.ctxErr w = c
  obtain ⟨cerr, w1⟩ := c
  rcases cerr with _ | e
  · dsimp only
    generalize env.newStream (env.setConnectivityState w1 .Connecting none) healthCheckMethod = o
    obtain ⟨⟨raw, oerr⟩, w2⟩ := o
    rcases oerr with _ | e
    · cases raw
      case clientStream s => exact .opened s _ _ (sendStep_shape env service k s w2)
      all_goals exact .wrongType _ (by simp)
    · exact .openFailed raw e
  · exact .cancelled e

theorem StepShape.of_open_first {service : String} {es : List Event} {l : Loc}
    (h : OpenShape 1 service es l) : StepShape service (.retryConnection 0) es l := by
  cases h with
  | cancelled e => exact .firstCancelled e
  | openFailed raw e => exact .firstOpenFailed raw e
  | wrongType raw hraw => exact .firstWrongType raw hraw
  | opened s es l h =>
    cases h with
    | sent => exact .firstEntered s none (.inl rfl)
    | sentEOF => exact .firstEntered s (some .eof) (.inr rfl)
    | failed e he => exact .firstSendFailed s e he

theorem StepShape.of_open_retry {service : String} {es : List Event} {l : Loc} {k : Nat}
    (hk : 0 < k) (h : OpenShape (k + 1) service es l) :
    StepShape service (.retryConnection k) (.backoff (k - 1) true :: es) l := by
  cases h with
  | cancelled e => exact .retryCancelled k hk e
  | openFailed raw e => exact .retryOpenFailed k hk raw e
  | wrongType raw hraw => exact .retryWrongType k hk raw hraw
  | opened s es l h =>
    cases h with
    | sent => exact .retryEntered k hk s none (.inl rfl)
    | sentEOF => exact .retryEntered k hk s (some .eof) (.inr rfl)
    | failed e he => exact .retrySendFailed k hk s e he

theorem connectStep_shape (env : Env σ) (service : String) (k : Nat) (w : σ) :
    StepShape service (.retryConnection k) (connectStep env service k w).1
      (connectStep env service k w).2.loc := by
  unfold connectStep
  split
  · next hk =>
    generalize env.backoffFunc w (k - 1) = b
    obtain ⟨ok, w1⟩ := b
    cases ok
    · exact .backoffCancelled k hk
    · exact .of_open_retry hk (openStep_shape env service (k + 1) w1)
  · next hk =>
    obtain rfl : k = 0 := by omega
    exact .of_open_first (openStep_shape env service 1 w)

theorem recvStep_shape (env : Env σ) (service : String) (k s : Nat) (w : σ) :
    StepShape service (.receiving k s) (recvStep env k s w).1 (recvStep env k s w).2.loc := by
  unfold recvStep
  generalize env.recvMsg w s = r
  obtain ⟨⟨err, st⟩, w1⟩ := r
  dsimp only
  split
  · next h =>
    rcases err with _ | e
    · simp [statusCode] at h
    · exact .unimplemented k s e st h
  · next h =>
    rcases err with _ | e
    · dsimp only
      split
      · next hst => subst hst; exact .serving k s
      · next hst => exact .notServing k s st hst
    · exact .recvFailed k s e st h

theorem step_shape (env : Env σ) (service : String) (c : Config σ)
    (h : c.result = none) : StepShape service c.loc (step env service c).1
      (step env service c).2.loc := by
  obtain ⟨l, w⟩ := c
  cases l with
  | retryConnection k => exact connectStep_shape env service k w
  | receiving k s => exact recvStep_shape env service k s w
  | returned e => simp [Config.result] at h

theorem exec_shape (env : Env σ) (service : String) (n : Nat) (c : Config σ) :
    RunShape service c.loc (exec env service n c).1 (exec env service n c).2.loc := by
  induction n generalizing c with
  | zero => exact .done _
  | succ n ih =>
    obtain ⟨l, w⟩ := c
    cases l with
    | returned e => exact .done _
    | retryConnection k =>
      exact .iter _ _ _ _ _ (step_shape env service ⟨.retryConnection k, w⟩ rfl) (ih _)
    | receiving k s =>
      exact .iter _ _ _ _ _ (step_shape env service ⟨.receiving k s, w⟩ rfl) (ih _)

/-! ## The trace is the record of the calls made on the environment -/

theorem replay_append {σ : Type} (env : Env σ) (w : σ) (a b : List Event) :
    replay env w (a ++ b) = (replay env w a).bind fun w1 => replay env w1 b := by
  induction a generalizing w with
  | nil => simp [replay]
  | cons ev a ih =>
    simp only [List.cons_append, replay]
    cases ev.perform env w with
    | none => simp
    | some w1 => simpa using ih w1

/-- If the calls of `pre ++ x :: post` can be performed from `w`, then so
can those of `pre`, then `x`, then those of `post`, through the worlds in
between. -/
theorem replay_split {σ : Type} (env : Env σ) (w wf : σ) (pre post : List Event) (x : Event)
    (h : replay env w (pre ++ x :: post) = some wf) :
    ∃ w0 w1, replay env w pre = some w0 ∧ x.perform env w0 = some w1 ∧
      replay env w1 post = some wf := by
  rw [replay_append] at h
  cases h0 : replay env w pre with
  | none => simp [h0] at h
  | some w0 =>
    simp only [h0, Option.some_bind, replay] at h
    cases h1 : x.perform env w0 with
    | none => simp [h1] at h
    | some w1 =>
      simp only [h1, Option.some_bind] at h
      exact ⟨w0, w1, rfl, h1, h⟩

theorem Event.perform_backoff {σ : Type} {env : Env σ} {w w1 : σ} {k : Nat} {ok : Bool}
    (h : (Event.backoff k ok).perform env w = some w1) : env.backoffFunc w k = (ok, w1) := by
  simp only [Event.perform] at h
  split at h
  · next hc => exact Prod.ext hc (Option.some.inj h)
  · cases h

theorem Event.perform_ctxErr {σ : Type} {env : Env σ} {w w1 : σ} {e : Option GoError}
    (h : (Event.ctxErr e).perform env w = some w1) : env.ctxErr w = (e, w1) := by
  simp only [Event.perform] at h
  split at h
  · next hc => exact Prod.ext hc (Option.some.inj h)
  · cases h

theorem Event.perform_report {σ : Type} {env : Env σ} {w w1 : σ} {st : ConnectivityState}
    {e : Option GoError} (h : (Event.report st e).perform env w = some w1) :
    w1 = env.setConnectivityState w st e :=
  (Option.some.inj h).symm

theorem Event.perform_newStream {σ : Type} {env : Env σ} {w w1 : σ} {m : String}
    {raw : RawStream} {err : Option GoError}
    (h : (Event.newStream m raw err).perform env w = some w1) :
    env.newStream w m = ((raw, err), w1) := by
  simp only [Event.perform] at h
  split at h
  · next hc => exact Prod.ext hc (Option.some.inj h)
  · cases h

theorem Event.perform_recvMsg {σ : Type} {env : Env σ} {w w1 : σ} {s : Nat}
    {err : Option GoError} {st : ServingStatus}
    (h : (Event.recvMsg s err st).perform env w = some w1) :
    env.recvMsg w s = ((err, st), w1) := by
  simp only [Event.perform] at h
  split at h
  · next hc => exact Prod.ext hc (Option.some.inj h)
  · cases h

/-- Performing a single report on the environment is calling the sink. -/
theorem replay_report {σ : Type} (env : Env σ) (w : σ) (st : ConnectivityState)
    (e : Option GoError) :
    replay env w [.report st e] = some (env.setConnectivityState w st e) :=
  rfl

theorem sendStep_replay {σ : Type} (env : Env σ) (service : String) (k s : Nat) (w : σ) :
    replay env w (sendStep env service k s w).1 = some (sendStep env service k s w).2.world := by
  unfold sendStep
  rcases h : env.sendMsg w s service with ⟨err, w1⟩
  rcases err with _ | e
  · simp [replay, Event.perform, h]
  · cases e <;> simp [replay, Event.perform, h]

theorem openStep_replay {σ : Type} (env : Env σ) (service : String) (k : Nat) (w : σ) :
    replay env w (openStep env service k w).1 = some (openStep env service k w).2.world := by
  unfold openStep
  rcases hc : env.ctxErr w with ⟨cerr, w1⟩
  rcases cerr with _ | e
  · rcases ho : env.newStream (env.setConnectivityState w1 .Connecting none)
        healthCheckMethod with ⟨⟨raw, oerr⟩, w2⟩
    rcases oerr with _ | e
    · cases raw
      case clientStream s =>
        simp [replay, Event.perform, hc, ho, sendStep_replay]
      all_goals simp [replay, Event.perform, hc, ho]
    · simp [replay, Event.perform, hc, ho]
  · simp [replay, Event.perform, hc]

theorem connectStep_replay {σ : Type} (env : Env σ) (service : String) (k : Nat) (w : σ) :
    replay env w (connectStep env service k w).1 =
      some (connectStep env service k w).2.world := by
  unfold connectStep
  split
  · rcases hb : env.backoffFunc w (k - 1) with ⟨ok, w1⟩
    cases ok
    · simp [replay, Event.perform, hb]
    · simp [replay, Event.perform, hb, openStep_replay]
  · exact openStep_replay env service (k + 1) w

theorem recvStep_replay {σ : Type} (env : Env σ) (k s : Nat) (w : σ) :
    replay env w (recvStep env k s w).1 = some (recvStep env k s w).2.world := by
  unfold recvStep
  rcases hr : env.recvMsg w s with ⟨⟨err, st⟩, w1⟩
  dsimp only
  split
  · simp [replay, Event.perform, hr]
  · rcases err with _ | e
    · dsimp only
      split <;> simp [replay, Event.perform, hr]
    · simp [replay, Event.perform, hr]

theorem step_replay {σ : Type} (env : Env σ) (service : String) (c : Config σ) :
    replay env c.world (step env service c).1 = some (step env service c).2.world := by
  obtain ⟨l, w⟩ := c
  cases l with
  | retryConnection k => exact connectStep_replay env service k w
  | receiving k s => exact recvStep_replay env k s w
  | returned e => rfl

theorem exec_replay {σ : Type} (env : Env σ) (service : String) (n : Nat) (c : Config σ) :
    replay env c.world (exec env service n c).1 = some (exec env service n c).2.world := by
  induction n generalizing c with
  | zero => rfl
  | succ n ih =>
    obtain ⟨l, w⟩ := c
    cases l with
    | returned e => rfl
    | retryConnection k =>
      have h : exec env service (n + 1) ⟨.retryConnection k, w⟩ =
          ((step env service ⟨.retryConnection k, w⟩).1 ++
              (exec env service n (step env service ⟨.retryConnection k, w⟩).2).1,
            (exec env service n (step env service ⟨.retryConnection k, w⟩).2).2) := rfl
      rw [h, replay_append]
      simp only
      rw [step_replay env service ⟨.retryConnection k, w⟩]
      exact ih _
    | receiving k s =>
      have h : exec env service (n + 1) ⟨.receiving k s, w⟩ =
          ((step env service ⟨.receiving k s, w⟩).1 ++
              (exec env service n (step env service ⟨.receiving k s, w⟩).2).1,
            (exec env service n (step env service ⟨.receiving k s, w⟩).2).2) := rfl
      rw [h, replay_append]
      simp only
      rw [step_replay env service ⟨.receiving k s, w⟩]
      exact ih _

/-- The trace of a run is the record of the calls the engine made on its
environment: performing the calls of the trace, in order and with the
arguments recorded, from the initial world gives the results recorded and
leaves the world in which the run ends. -/
theorem clientHealthCheck_replay {σ : Type} (env : Env σ) (service : String) (fuel : Nat)
    (w : σ) :
    replay env w (clientHealthCheck env service fuel w).1 =
      some (clientHealthCheck env service fuel w).2.world :=
  exec_replay env service fuel ⟨.retryConnection 0, w⟩

/-! ## Structure of runs -/

theorem StepShape.ne_nil {service : String} {l l1 : Loc} {es : List Event}
    (h : StepShape service l es l1) : es ≠ [] := by
  cases h <;> simp

theorem RunShape.of_returned {service : String} {e : Option GoError} {tr : List Event}
    {l : Loc} (h : RunShape service (.returned e) tr l) : tr = [] ∧ l = .returned e := by
  cases h with
  | done => exact ⟨rfl, rfl⟩
  | iter _ l1 _ es tr h hr => cases h

theorem RunShape.single {service : String} {l l1 : Loc} {es : List Event}
    (h : StepShape service l es l1) : RunShape service l es l1 := by
  simpa using RunShape.iter l l1 l1 es [] h (.done l1)

theorem RunShape.trans {service : String} {l l1 l2 : Loc} {a b : List Event}
    (h1 : RunShape service l a l1) (h2 : RunShape service l1 b l2) :
    RunShape service l (a ++ b) l2 := by
  induction h1 with
  | done => simpa using h2
  | iter l l1 l2 es tr h _ ih =>
    rw [List.append_assoc]
    exact .iter _ _ _ _ _ h (ih h2)

/-- Every call in a run belongs to one loop iteration: the run splits into
the iterations before it, the iteration that makes the call, and the rest. -/
theorem RunShape.locate {service : String} {l l2 : Loc} {tr : List Event}
    (h : RunShape service l tr l2) (pre post : List Event) (x : Event)
    (htr : tr = pre ++ x :: post) :
    ∃ lm lm1 es pre0 pre1 post1 tr1,
      RunShape service l pre0 lm ∧ StepShape service lm es lm1 ∧
      RunShape service lm1 tr1 l2 ∧ es = pre1 ++ x :: post1 ∧
      pre = pre0 ++ pre1 ∧ post = post1 ++ tr1 := by
  induction h generalizing pre with
  | done => simp at htr
  | iter l l1 l2 es tr h hr ih =>
    rcases List.append_eq_append_iff.1 htr with ⟨a, rfl, ha⟩ | ⟨c, hc, hx⟩
    · obtain ⟨lm, lm1, es1, pre0, pre1, post1, tr1, h0, hs, h1, he, rfl, rfl⟩ := ih a ha
      exact ⟨lm, lm1, es1, es ++ pre0, pre1, post1, tr1, (RunShape.single h).trans h0, hs, h1,
        he, by simp, rfl⟩
    · cases c with
      | nil =>
        simp at hc hx
        subst hc
        obtain ⟨lm, lm1, es1, pre0, pre1, post1, tr1, h0, hs, h1, he, hp, rfl⟩ :=
          ih [] (by simpa using hx.symm)
        exact ⟨lm, lm1, es1, es ++ pre0, pre1, post1, tr1, (RunShape.single h).trans h0, hs, h1,
          he, by simp [← hp], rfl⟩
      | cons y c =>
        simp at hx
        obtain ⟨rfl, rfl⟩ := hx
        exact ⟨l, l1, es, [], pre, c, tr, .done l, h, hr, hc, by simp, rfl⟩

/-- A run is empty or ends with a loop iteration. -/
theorem RunShape.last {service : String} {l l2 : Loc} {tr : List Event}
    (h : RunShape service l tr l2) :
    (tr = [] ∧ l = l2) ∨
      ∃ tr0 lm es,
        RunShape service l tr0 lm ∧ StepShape service lm es l2 ∧ tr = tr0 ++ es := by
  induction h with
  | done => exact .inl ⟨rfl, rfl⟩
  | iter l l1 l2 es tr h hr ih =>
    right
    rcases ih with ⟨rfl, rfl⟩ | ⟨tr0, lm, es1, h0, hs, rfl⟩
    · exact ⟨[], l, es, .done l, h, by simp⟩
    · exact ⟨es ++ tr0, lm, es1, (RunShape.single h).trans h0, hs, by simp⟩

theorem StepShape.recv_unimplemented {service : String} {l l1 : Loc} {es : List Event}
    (h : StepShape service l es l1) (pre post : List Event) (s : Nat) (err : Option GoError)
    (st : ServingStatus) (hcode : statusCode err = .Unimplemented)
    (hes : es = pre ++ .recvMsg s err st :: post) :
    pre = [] ∧ post = [.report .Ready none] ∧ l1 = .returned err := by
  cases h <;> simp [List.cons_eq_append_iff] at hes <;>
    obtain ⟨rfl, ⟨rfl, rfl, rfl⟩, rfl⟩ := hes
  · simp
  · rename_i he; exact absurd hcode he
  · simp [statusCode] at hcode
  · simp [statusCode] at hcode

theorem Config.result_of_loc {σ : Type} {c : Config σ} {e : Option GoError}
    (h : c.loc = .returned e) : c.result = some e := by
  simp [Config.result, h]

theorem clientHealthCheck_shape {σ : Type} (env : Env σ) (service : String) (fuel : Nat)
    (w : σ) :
    RunShape service (.retryConnection 0) (clientHealthCheck env service fuel w).1
      (clientHealthCheck env service fuel w).2.loc :=
  exec_shape env service fuel ⟨.retryConnection 0, w⟩

/-! ## C1: an Unimplemented response -/

/-- C1: whenever `RecvMsg` returns an error whose status code is
Unimplemented, whatever calls came before it in the run, the calls after it
are exactly one `setConnectivityState(Ready, nil)` and nothing else (no
backoff, no `newStream`, no further report), and the function has returned
(with that error).  The report is a call of the sink: with `w0` the world
left by the calls before the `RecvMsg` and `w1` the world that `RecvMsg`
left, the world in which the run ends is the one that
`setConnectivityState(Ready, nil)`, called in `w1`, leaves. -/
theorem unimplemented_reports_ready_and_stops {σ : Type} (env : Env σ) (service : String)
    (fuel : Nat) (w : σ) (pre post : List Event) (s : Nat) (err : Option GoError)
    (st : ServingStatus) (hcode : statusCode err = .Unimplemented)
    (htr : (clientHealthCheck env service fuel w).1 = pre ++ .recvMsg s err st :: post) :
    post = [.report .Ready none] ∧
      (clientHealthCheck env service fuel w).2.result = some err ∧
      ∃ w0 w1, replay env w pre = some w0 ∧ env.recvMsg w0 s = ((err, st), w1) ∧
        (clientHealthCheck env service fuel w).2.world =
          env.setConnectivityState w1 .Ready none := by
  have hrep := clientHealthCheck_replay env service fuel w
  rw [htr] at hrep
  obtain ⟨lm, lm1, es, pre0, pre1, post1, tr1, -, hs, h1, hes, -, rfl⟩ :=
    (clientHealthCheck_shape env service fuel w).locate pre post _ htr
  obtain ⟨-, rfl, rfl⟩ := hs.recv_unimplemented pre1 post1 s err st hcode hes
  obtain ⟨rfl, hl⟩ := h1.of_returned
  obtain ⟨w0, w1, h0, hx, hpost⟩ := replay_split env w _ pre _ _ hrep
  refine ⟨by simp, Config.result_of_loc hl, w0, w1, h0, Event.perform_recvMsg hx, ?_⟩
  simp only [List.append_nil, replay_report] at hpost
  exact (Option.some.inj hpost).symm

theorem unimplemented_reports_ready_and_stops_witness :
    statusCode (some (.status .Unimplemented "unknown service")) = .Unimplemented ∧
    (clientHealthCheck recording "svc" 9 (scriptUnimplemented, [])).1 =
      [.ctxErr none, .report .Connecting none,
        .newStream healthCheckMethod .nil (some (.other "unavailable")),
        .backoff 0 true, .ctxErr none, .report .Connecting none,
        .newStream healthCheckMethod (.clientStream 7) none, .sendMsg 7 "svc" none,
        .closeSend 7, .recvMsg 7 none .NOT_SERVING,
        .report .TransientFailure (some (.errorfStatus fmtNotServing .NOT_SERVING))] ++
      .recvMsg 7 (some (.status .Unimplemented "unknown service")) .UNKNOWN ::
        [.report .Ready none] ∧
    (clientHealthCheck recording "svc" 9 (scriptUnimplemented, [])).2.world.2.getLast? =
      some (.report .Ready none) ∧
    (clientHealthCheck recording "svc" 9 (scriptUnimplemented, [])).2.result =
      some (some (.status .Unimplemented "unknown service")) :=
  ⟨by decide, by decide, by decide,
    (unimplemented_reports_ready_and_stops recording "svc" 9 (scriptUnimplemented, [])
      [.ctxErr none, .report .Connecting none,
        .newStream healthCheckMethod .nil (some (.other "unavailable")),
        .backoff 0 true, .ctxErr none, .report .Connecting none,
        .newStream healthCheckMethod (.clientStream 7) none, .sendMsg 7 "svc" none,
        .closeSend 7, .recvMsg 7 none .NOT_SERVING,
        .report .TransientFailure (some (.errorfStatus fmtNotServing .NOT_SERVING))]
      [.report .Ready none] 7 (some (.status .Unimplemented "unknown service")) .UNKNOWN
      (by decide) (by decide)).2.1⟩

theorem mem_splits {α : Type} (l pre post : List α) (x : α) :
    (pre, x, post) ∈ splits l ↔ l = pre ++ x :: post := by
  induction l generalizing pre with
  | nil => simp [splits]
  | cons a l ih =>
    simp only [splits, List.mem_cons, List.mem_map, Prod.mk.injEq, Prod.exists]
    constructor
    · rintro (⟨rfl, rfl, rfl⟩ | ⟨p, y, q, hm, rfl, rfl, rfl⟩)
      · simp
      · simp [(ih p).1 hm]
    · intro h
      rcases List.cons_eq_append_iff.1 h with ⟨rfl, h2⟩ | ⟨p, rfl, h2⟩
      · simp at h2
        simp [h2.1, h2.2]
      · exact .inr ⟨p, x, post, (ih p).2 h2, rfl, rfl, rfl⟩

theorem StepShape.wrong_type {service : String} {l l1 : Loc} {es : List Event}
    (h : StepShape service l es l1) (pre post : List Event) (m : String) (raw : RawStream)
    (hraw : ∀ s, raw ≠ .clientStream s)
    (hes : es = pre ++ .newStream m raw none :: post) :
    post = [.report .Ready none] ∧
      l1 = .returned (some (.errorfRaw fmtWantClientStream raw)) := by
  rw [← mem_splits] at hes
  cases h <;> simp [splits] at hes <;> obtain ⟨rfl, ⟨rfl, rfl⟩, rfl⟩ := hes <;> simp_all

theorem StepShape.ctx_cancelled {service : String} {l l1 : Loc} {es : List Event}
    (h : StepShape service l es l1) (pre post : List Event) (e : GoError)
    (hes : es = pre ++ .ctxErr (some e) :: post) :
    post = [] ∧ l1 = .returned none := by
  rw [← mem_splits] at hes
  cases h <;> simp [splits] at hes <;> obtain ⟨rfl, rfl, rfl⟩ := hes <;> simp

theorem StepShape.backoff_interrupted {service : String} {l l1 : Loc} {es : List Event}
    (h : StepShape service l es l1) (pre post : List Event) (k : Nat)
    (hes : es = pre ++ .backoff k false :: post) :
    post = [] ∧ l1 = .returned none := by
  rw [← mem_splits] at hes
  cases h <;> simp [splits] at hes
  simp [hes]

theorem StepShape.returned_error {service : String} {l : Loc} {es : List Event}
    {e : GoError} (h : StepShape service l es (.returned (some e))) :
    (∃ m raw, .newStream m raw none ∈ es ∧ (∀ s, raw ≠ .clientStream s) ∧
        e = .errorfRaw fmtWantClientStream raw) ∨
      (∃ s st, .recvMsg s (some e) st ∈ es ∧ statusCode (some e) = .Unimplemented) := by
  cases h with
  | firstWrongType raw hraw => exact .inl ⟨healthCheckMethod, raw, by simp, hraw, rfl⟩
  | retryWrongType k hk raw hraw => exact .inl ⟨healthCheckMethod, raw, by simp, hraw, rfl⟩
  | unimplemented k s e st he => exact .inr ⟨s, st, by simp, he⟩

theorem StepShape.returned_nil {service : String} {l : Loc} {es : List Event}
    (h : StepShape service l es (.returned none)) :
    (∃ e, .ctxErr (some e) ∈ es) ∨ (∃ k, .backoff k false ∈ es) := by
  cases h with
  | firstCancelled e => exact .inl ⟨e, by simp⟩
  | backoffCancelled k hk => exact .inr ⟨k - 1, by simp⟩
  | retryCancelled k hk e => exact .inl ⟨e, by simp⟩

/-! ## C2: when the function returns a non-nil error -/

/-- C2 fails as stated: in this run every `newStream` call returns an error
or a `grpc.ClientStream`, and the function still returns a non-nil error,
the Unimplemented error it received. -/
theorem error_only_on_protocol_violation_counterexample :
    (clientHealthCheck scripted "svc" 9 scriptUnimplemented).1.any Event.protocolViolation
        = false ∧
      (clientHealthCheck scripted "svc" 9 scriptUnimplemented).2.result =
        some (some (.status .Unimplemented "unknown service")) := by
  decide

/-- C2, amended: the function returns a non-nil error `e` exactly when
either `newStream` returned, without error, a handle that is not a
`grpc.ClientStream` (and `e` is the error built from that handle), or
`RecvMsg` returned `e` and its status code is Unimplemented; and it returns
nil exactly when `ctx.Err()` was non-nil at the check or `backoffFunc`
returned false. -/
theorem returns_error_iff_violation_or_unimplemented {σ : Type} (env : Env σ)
    (service : String) (fuel : Nat) (w : σ) :
    (∀ e : GoError,
      (clientHealthCheck env service fuel w).2.result = some (some e) ↔
        ((∃ m raw, .newStream m raw none ∈ (clientHealthCheck env service fuel w).1 ∧
            (∀ s, raw ≠ .clientStream s) ∧ e = .errorfRaw fmtWantClientStream raw) ∨
          (∃ s st, .recvMsg s (some e) st ∈ (clientHealthCheck env service fuel w).1 ∧
            statusCode (some e) = .Unimplemented))) ∧
      ((clientHealthCheck env service fuel w).2.result = some none ↔
        ((∃ e, .ctxErr (some e) ∈ (clientHealthCheck env service fuel w).1) ∨
          (∃ k, .backoff k false ∈ (clientHealthCheck env service fuel w).1))) := by
  have hrun := clientHealthCheck_shape env service fuel w
  generalize (clientHealthCheck env service fuel w).1 = tr at hrun ⊢
  generalize (clientHealthCheck env service fuel w).2 = c at hrun ⊢
  have hres : ∀ r, c.result = some r ↔ c.loc = .returned r := by
    intro r
    obtain ⟨l, w1⟩ := c
    cases l <;> simp [Config.result]
  constructor
  · intro e
    rw [hres]
    constructor
    · intro hl
      rw [hl] at hrun
      rcases hrun.last with ⟨-, h⟩ | ⟨tr0, lm, es, -, hs, rfl⟩
      · cases h
      · rcases hs.returned_error with ⟨m, raw, hm, hraw, he⟩ | ⟨s, st, hm, he⟩
        · exact .inl ⟨m, raw, by simp [hm], hraw, he⟩
        · exact .inr ⟨s, st, by simp [hm], he⟩
    · rintro (⟨m, raw, hm, hraw, rfl⟩ | ⟨s, st, hm, he⟩)
      · obtain ⟨pre, post, htr⟩ := List.append_of_mem hm
        obtain ⟨lm, lm1, es, pre0, pre1, post1, tr1, -, hs, h1, hes, -, rfl⟩ :=
          hrun.locate pre post _ htr
        obtain ⟨-, rfl⟩ := hs.wrong_type pre1 post1 m raw hraw hes
        exact h1.of_returned.2
      · obtain ⟨pre, post, htr⟩ := List.append_of_mem hm
        obtain ⟨lm, lm1, es, pre0, pre1, post1, tr1, -, hs, h1, hes, -, rfl⟩ :=
          hrun.locate pre post _ htr
        obtain ⟨-, -, rfl⟩ := hs.recv_unimplemented pre1 post1 s (some e) st he hes
        exact h1.of_returned.2
  · rw [hres]
    constructor
    · intro hl
      rw [hl] at hrun
      rcases hrun.last with ⟨-, h⟩ | ⟨tr0, lm, es, -, hs, rfl⟩
      · cases h
      · rcases hs.returned_nil with ⟨e, hm⟩ | ⟨k, hm⟩
        · exact .inl ⟨e, by simp [hm]⟩
        · exact .inr ⟨k, by simp [hm]⟩
    · rintro (⟨e, hm⟩ | ⟨k, hm⟩)
      · obtain ⟨pre, post, htr⟩ := List.append_of_mem hm
        obtain ⟨lm, lm1, es, pre0, pre1, post1, tr1, -, hs, h1, hes, -, rfl⟩ :=
          hrun.locate pre post _ htr
        obtain ⟨-, rfl⟩ := hs.ctx_cancelled pre1 post1 e hes
        exact h1.of_returned.2
      · obtain ⟨pre, post, htr⟩ := List.append_of_mem hm
        obtain ⟨lm, lm1, es, pre0, pre1, post1, tr1, -, hs, h1, hes, -, rfl⟩ :=
          hrun.locate pre post _ htr
        obtain ⟨-, rfl⟩ := hs.backoff_interrupted pre1 post1 k hes
        exact h1.of_returned.2

/-! ## What follows a call inside its loop iteration -/

theorem StepShape.recv_failed {service : String} {l l1 : Loc} {es : List Event}
    (h : StepShape service l es l1) (pre post : List Event) (s : Nat) (e : GoError)
    (st : ServingStatus) (hcode : statusCode (some e) ≠ .Unimplemented)
    (hes : es = pre ++ .recvMsg s (some e) st :: post) :
    pre = [] ∧ post = [.report .TransientFailure (some (.errorfErr fmtRecvError e))] ∧
      ∃ k, l = .receiving k s ∧ l1 = .retryConnection k := by
  rw [← mem_splits] at hes
  cases h <;> simp [splits] at hes <;> obtain ⟨rfl, ⟨rfl, rfl, rfl⟩, rfl⟩ := hes
  · rename_i he; exact absurd he hcode
  · simp

theorem StepShape.recv_message {service : String} {l l1 : Loc} {es : List Event}
    (h : StepShape service l es l1) (pre post : List Event) (s : Nat) (st : ServingStatus)
    (hes : es = pre ++ .recvMsg s none st :: post) :
    pre = [] ∧ l1 = .receiving 0 s ∧ (∃ k, l = .receiving k s) ∧
      (st = .SERVING → post = [.report .Ready none]) ∧
      (st ≠ .SERVING →
        post = [.report .TransientFailure (some (.errorfStatus fmtNotServing st))]) := by
  rw [← mem_splits] at hes
  cases h <;> simp [splits] at hes <;> obtain ⟨rfl, ⟨rfl, rfl⟩, rfl⟩ := hes
  · simp
  · simp_all

theorem StepShape.open_failed {service : String} {l l1 : Loc} {es : List Event}
    (h : StepShape service l es l1) (pre post : List Event) (m : String) (raw : RawStream)
    (e : GoError) (hes : es = pre ++ .newStream m raw (some e) :: post) :
    post = [] ∧ ∃ k, 0 < k ∧ l1 = .retryConnection k := by
  rw [← mem_splits] at hes
  cases h <;> simp [splits] at hes <;> obtain ⟨rfl, ⟨rfl, rfl, rfl⟩, rfl⟩ := hes <;> simp

theorem StepShape.send_failed {service : String} {l l1 : Loc} {es : List Event}
    (h : StepShape service l es l1) (pre post : List Event) (s : Nat) (svc : String)
    (e : GoError) (he : e ≠ .eof) (hes : es = pre ++ .sendMsg s svc (some e) :: post) :
    post = [] ∧ ∃ k, 0 < k ∧ l1 = .retryConnection k := by
  rw [← mem_splits] at hes
  cases h <;> simp [splits] at hes <;> obtain ⟨rfl, ⟨rfl, rfl, rfl⟩, rfl⟩ := hes <;>
    simp_all

theorem StepShape.send_done {service : String} {l l1 : Loc} {es : List Event}
    (h : StepShape service l es l1) (pre post : List Event) (s : Nat) (svc : String)
    (err : Option GoError) (herr : err = none ∨ err = some .eof)
    (hes : es = pre ++ .sendMsg s svc err :: post) :
    post = [.closeSend s] ∧ ∃ k, 0 < k ∧ l1 = .receiving k s := by
  rw [← mem_splits] at hes
  cases h <;> simp [splits] at hes <;> obtain ⟨rfl, ⟨rfl, rfl, rfl⟩, rfl⟩ := hes <;>
    simp_all

/-! ## How a run starts from a control point -/

theorem RunShape.head_backoff {service : String} {k : Nat} {l2 : Loc} {tr : List Event}
    (h : RunShape service (.retryConnection k) tr l2) (hk : 0 < k) :
    (tr = [] ∧ l2 = .retryConnection k) ∨ ∃ b rest, tr = .backoff (k - 1) b :: rest := by
  cases h with
  | done => exact .inl ⟨rfl, rfl⟩
  | iter _ l1 _ es tr h hr =>
    right
    cases h <;> first | omega | exact ⟨_, _, rfl⟩

theorem RunShape.head_ctx {service : String} {l2 : Loc} {tr : List Event}
    (h : RunShape service (.retryConnection 0) tr l2) :
    (tr = [] ∧ l2 = .retryConnection 0) ∨ ∃ c rest, tr = .ctxErr c :: rest := by
  cases h with
  | done => exact .inl ⟨rfl, rfl⟩
  | iter _ l1 _ es tr h hr =>
    right
    cases h <;> first | omega | exact ⟨_, _, rfl⟩

theorem RunShape.head_recv {service : String} {k s : Nat} {l2 : Loc} {tr : List Event}
    (h : RunShape service (.receiving k s) tr l2) :
    (tr = [] ∧ l2 = .receiving k s) ∨ ∃ e st rest, tr = .recvMsg s e st :: rest := by
  cases h with
  | done => exact .inl ⟨rfl, rfl⟩
  | iter _ l1 _ es tr h hr =>
    right
    cases h <;> exact ⟨_, _, _, rfl⟩
/-! ## One more unit of fuel runs one more loop iteration -/

/-- Fuel only truncates a run: with one more unit, the run is the same
followed by one more loop iteration, unless the function had returned. -/
theorem exec_succ {σ : Type} (env : Env σ) (service : String) (n : Nat) (c : Config σ) :
    exec env service (n + 1) c =
      match (exec env service n c).2.loc with
      | .returned _ => exec env service n c
      | _ =>
        ((exec env service n c).1 ++ (step env service (exec env service n c).2).1,
          (step env service (exec env service n c).2).2) := by
  induction n generalizing c with
  | zero =>
    obtain ⟨l, w⟩ := c
    cases l <;> simp [exec]
  | succ n ih =>
    obtain ⟨l, w⟩ := c
    cases l with
    | returned r => simp [exec]
    | retryConnection k =>
      have e1 : ∀ m, exec env service (m + 1) ⟨.retryConnection k, w⟩ =
          ((step env service ⟨.retryConnection k, w⟩).1 ++
              (exec env service m (step env service ⟨.retryConnection k, w⟩).2).1,
            (exec env service m (step env service ⟨.retryConnection k, w⟩).2).2) :=
        fun _ => rfl
      rw [e1 (n + 1), e1 n, ih]
      split <;> simp_all
    | receiving k s =>
      have e1 : ∀ m, exec env service (m + 1) ⟨.receiving k s, w⟩ =
          ((step env service ⟨.receiving k s, w⟩).1 ++
              (exec env service m (step env service ⟨.receiving k s, w⟩).2).1,
            (exec env service m (step env service ⟨.receiving k s, w⟩).2).2) :=
        fun _ => rfl
      rw [e1 (n + 1), e1 n, ih]
      split <;> simp_all

/-- At the head of the retry loop with `tryCnt > 0`, the next call is
`backoffFunc(ctx, tryCnt-1)`. -/
theorem next_call_backoff {σ : Type} (env : Env σ) (service : String) (fuel : Nat) (w : σ)
    (k : Nat) (hk : 0 < k)
    (hloc : (clientHealthCheck env service fuel w).2.loc = .retryConnection k) :
    ∃ b rest, (clientHealthCheck env service (fuel + 1) w).1 =
      (clientHealthCheck env service fuel w).1 ++ .backoff (k - 1) b :: rest := by
  unfold clientHealthCheck at hloc ⊢
  rw [exec_succ]
  generalize exec env service fuel ⟨.retryConnection 0, w⟩ = r at hloc ⊢
  obtain ⟨tr, l, w1⟩ := r
  simp only at hloc
  subst hloc
  have hs := connectStep_shape env service k w1
  have hrun : RunShape service (.retryConnection k) (connectStep env service k w1).1
      (connectStep env service k w1).2.loc := RunShape.single hs
  rcases hrun.head_backoff hk with ⟨h, -⟩ | ⟨b, rest, h⟩
  · exact absurd h hs.ne_nil
  · exact ⟨b, rest, by simp [step, h]⟩

/-- At the head of the retry loop with `tryCnt = 0`, the next call is
`ctx.Err()`: no backoff wait precedes the attempt. -/
theorem next_call_ctx {σ : Type} (env : Env σ) (service : String) (fuel : Nat) (w : σ)
    (hloc : (clientHealthCheck env service fuel w).2.loc = .retryConnection 0) :
    ∃ c rest, (clientHealthCheck env service (fuel + 1) w).1 =
      (clientHealthCheck env service fuel w).1 ++ .ctxErr c :: rest := by
  unfold clientHealthCheck at hloc ⊢
  rw [exec_succ]
  generalize exec env service fuel ⟨.retryConnection 0, w⟩ = r at hloc ⊢
  obtain ⟨tr, l, w1⟩ := r
  simp only at hloc
  subst hloc
  have hs := connectStep_shape env service 0 w1
  have hrun : RunShape service (.retryConnection 0) (connectStep env service 0 w1).1
      (connectStep env service 0 w1).2.loc := RunShape.single hs
  rcases hrun.head_ctx with ⟨h, -⟩ | ⟨c, rest, h⟩
  · exact absurd h hs.ne_nil
  · exact ⟨c, rest, by simp [step, h]⟩

/-- At the head of the receive loop on stream `s`, the next call is
`RecvMsg` on `s`. -/
theorem next_call_recv {σ : Type} (env : Env σ) (service : String) (fuel : Nat) (w : σ)
    (k s : Nat) (hloc : (clientHealthCheck env service fuel w).2.loc = .receiving k s) :
    ∃ e st rest, (clientHealthCheck env service (fuel + 1) w).1 =
      (clientHealthCheck env service fuel w).1 ++ .recvMsg s e st :: rest := by
  unfold clientHealthCheck at hloc ⊢
  rw [exec_succ]
  generalize exec env service fuel ⟨.retryConnection 0, w⟩ = r at hloc ⊢
  obtain ⟨tr, l, w1⟩ := r
  simp only at hloc
  subst hloc
  have hs := recvStep_shape env service k s w1
  have hrun : RunShape service (.receiving k s) (recvStep env k s w1).1
      (recvStep env k s w1).2.loc := RunShape.single hs
  rcases hrun.head_recv with ⟨h, -⟩ | ⟨e, st, rest, h⟩
  · exact absurd h hs.ne_nil
  · exact ⟨e, st, rest, by simp [step, h]⟩

/-! ## C3: which failures are reported as TransientFailure -/

/-- C3 fails as stated: in this run `newStream` fails, then `SendMsg` fails
with an error other than `io.EOF`, the engine goes on to a third attempt,
and no `TransientFailure` report is made at all. -/
theorem open_and_send_failures_not_reported_counterexample :
    (clientHealthCheck scripted "svc" 3 scriptOpenAndSendFail).1 =
        [.ctxErr none, .report .Connecting none,
          .newStream healthCheckMethod .nil (some (.other "unavailable")),
          .backoff 0 true, .ctxErr none, .report .Connecting none,
          .newStream healthCheckMethod (.clientStream 3) none,
          .sendMsg 3 "svc" (some (.other "broken pipe")),
          .backoff 1 true, .ctxErr none, .report .Connecting none,
          .newStream healthCheckMethod (.clientStream 4) none, .sendMsg 4 "svc" none,
          .closeSend 4] ∧
      (clientHealthCheck scripted "svc" 3 scriptOpenAndSendFail).1.any
        Event.isTransientFailure = false := by
  decide

/-- C3, amended: for any call `x` of a run, with `post` the calls after it:
if `x` is a `RecvMsg` that returned an error other than Unimplemented, or
that delivered a response whose status is not SERVING, the next call is
`setConnectivityState(TransientFailure, err)` with a non-nil `err`
describing the failure; if `x` is a `newStream` that returned an error, or a
`SendMsg` that returned an error other than `io.EOF`, nothing is reported
for it: the engine is back at the head of the retry loop with `tryCnt > 0`,
and its next call is `backoffFunc` (either `post` starts with it, or the run
was cut there and one more loop iteration starts with it).  The calls of
the trace are the calls the engine made on its environment: performed in
that order from the initial world, they return what the trace records and
leave the world in which the run ends. -/
theorem transient_failure_reported_for_receive_outcomes {σ : Type} (env : Env σ)
    (service : String) (fuel : Nat) (w : σ) (pre post : List Event) (x : Event)
    (htr : (clientHealthCheck env service fuel w).1 = pre ++ x :: post) :
    (∀ s e st, x = .recvMsg s (some e) st → statusCode (some e) ≠ .Unimplemented →
        ∃ rest, post = .report .TransientFailure (some (.errorfErr fmtRecvError e)) :: rest) ∧
      (∀ s st, x = .recvMsg s none st → st ≠ .SERVING →
        ∃ rest,
          post = .report .TransientFailure (some (.errorfStatus fmtNotServing st)) :: rest) ∧
      (∀ m raw e, x = .newStream m raw (some e) →
        (post = [] ∧
            ∃ k, 0 < k ∧ (clientHealthCheck env service fuel w).2.loc = .retryConnection k ∧
              ∃ b more, (clientHealthCheck env service (fuel + 1) w).1 =
                (clientHealthCheck env service fuel w).1 ++ .backoff (k - 1) b :: more) ∨
          ∃ k b rest, post = .backoff k b :: rest) ∧
      (∀ s svc e, x = .sendMsg s svc (some e) → e ≠ .eof →
        (post = [] ∧
            ∃ k, 0 < k ∧ (clientHealthCheck env service fuel w).2.loc = .retryConnection k ∧
              ∃ b more, (clientHealthCheck env service (fuel + 1) w).1 =
                (clientHealthCheck env service fuel w).1 ++ .backoff (k - 1) b :: more) ∨
          ∃ k b rest, post = .backoff k b :: rest) ∧
      replay env w (clientHealthCheck env service fuel w).1 =
        some (clientHealthCheck env service fuel w).2.world := by
  obtain ⟨lm, lm1, es, pre0, pre1, post1, tr1, -, hs, h1, hes, -, rfl⟩ :=
    (clientHealthCheck_shape env service fuel w).locate pre post x htr
  refine ⟨?_, ?_, ?_, ?_, clientHealthCheck_replay env service fuel w⟩
  · rintro s e st rfl hcode
    obtain ⟨-, rfl, -⟩ := hs.recv_failed pre1 post1 s e st hcode hes
    exact ⟨tr1, rfl⟩
  · rintro s st rfl hst
    obtain ⟨-, -, -, -, hp⟩ := hs.recv_message pre1 post1 s st hes
    rw [hp hst]
    exact ⟨tr1, rfl⟩
  · rintro m raw e rfl
    obtain ⟨rfl, k, hk, rfl⟩ := hs.open_failed pre1 post1 m raw e hes
    rcases h1.head_backoff hk with ⟨rfl, hl⟩ | ⟨b, rest, rfl⟩
    · exact .inl ⟨rfl, k, hk, hl, next_call_backoff env service fuel w k hk hl⟩
    · exact .inr ⟨k - 1, b, rest, rfl⟩
  · rintro s svc e rfl he
    obtain ⟨rfl, k, hk, rfl⟩ := hs.send_failed pre1 post1 s svc e he hes
    rcases h1.head_backoff hk with ⟨rfl, hl⟩ | ⟨b, rest, rfl⟩
    · exact .inl ⟨rfl, k, hk, hl, next_call_backoff env service fuel w k hk hl⟩
    · exact .inr ⟨k - 1, b, rest, rfl⟩

theorem transient_failure_reported_for_receive_outcomes_witness :
    (clientHealthCheck recording "svc" 10 (scriptServingThenFail, [])).1 =
        (clientHealthCheck recording "svc" 10 (scriptServingThenFail, [])).1.take 9 ++
          .recvMsg 1 (some (.other "reset")) .UNKNOWN ::
            (clientHealthCheck recording "svc" 10 (scriptServingThenFail, [])).1.drop 10 ∧
      ∃ rest, (clientHealthCheck recording "svc" 10 (scriptServingThenFail, [])).1.drop 10 =
        .report .TransientFailure (some (.errorfErr fmtRecvError (.other "reset"))) :: rest :=
  ⟨by decide,
    (transient_failure_reported_for_receive_outcomes recording "svc" 10 (scriptServingThenFail, [])
      ((clientHealthCheck recording "svc" 10 (scriptServingThenFail, [])).1.take 9)
      ((clientHealthCheck recording "svc" 10 (scriptServingThenFail, [])).1.drop 10)
      (.recvMsg 1 (some (.other "reset")) .UNKNOWN) (by decide)).1 1 (.other "reset")
      .UNKNOWN rfl (by decide)⟩

/-! ## C4: a received response -/

/-- C4: for every response received without error (`RecvMsg` returned nil),
whatever came before it: the next call is a report, `(Ready, nil)` if the
status is SERVING and `TransientFailure` with a non-nil error otherwise, and
after the report the engine is at the head of the receive loop on the same
stream and its next call is `RecvMsg` on that stream, with no backoff and no
`newStream` in between (either the calls after the report start with it, or
the run was cut there and one more loop iteration starts with it).  The
report is a call of the sink: with `w0` the world left by the calls before
the `RecvMsg` and `w1` the world that `RecvMsg` left, the report is
`setConnectivityState(c, e)` called in `w1`, and the calls after the report
lead from the world it leaves to the world in which the run ends. -/
theorem received_message_reported_stream_kept {σ : Type} (env : Env σ) (service : String)
    (fuel : Nat) (w : σ) (pre post : List Event) (s : Nat) (st : ServingStatus)
    (htr : (clientHealthCheck env service fuel w).1 = pre ++ .recvMsg s none st :: post) :
    ∃ r rest, post = r :: rest ∧
      (st = .SERVING → r = .report .Ready none) ∧
      (st ≠ .SERVING →
        r = .report .TransientFailure (some (.errorfStatus fmtNotServing st))) ∧
      ((rest = [] ∧ (clientHealthCheck env service fuel w).2.loc = .receiving 0 s ∧
          ∃ e2 st2 more, (clientHealthCheck env service (fuel + 1) w).1 =
            (clientHealthCheck env service fuel w).1 ++ .recvMsg s e2 st2 :: more) ∨
        ∃ e2 st2 rest2, rest = .recvMsg s e2 st2 :: rest2) ∧
      ∃ w0 w1 c e, replay env w pre = some w0 ∧ env.recvMsg w0 s = ((none, st), w1) ∧
        r = .report c e ∧
        replay env (env.setConnectivityState w1 c e) rest =
          some (clientHealthCheck env service fuel w).2.world := by
  have hrep := clientHealthCheck_replay env service fuel w
  rw [htr] at hrep
  obtain ⟨lm, lm1, es, pre0, pre1, post1, tr1, -, hs, h1, hes, -, rfl⟩ :=
    (clientHealthCheck_shape env service fuel w).locate pre post _ htr
  obtain ⟨-, rfl, -, hserving, hother⟩ := hs.recv_message pre1 post1 s st hes
  obtain ⟨w0, w1, h0, hx, hpost⟩ := replay_split env w _ pre _ _ hrep
  have hnext : (tr1 = [] ∧ (clientHealthCheck env service fuel w).2.loc = .receiving 0 s ∧
        ∃ e2 st2 more, (clientHealthCheck env service (fuel + 1) w).1 =
          (clientHealthCheck env service fuel w).1 ++ .recvMsg s e2 st2 :: more) ∨
      ∃ e2 st2 rest2, tr1 = .recvMsg s e2 st2 :: rest2 := by
    rcases h1.head_recv with ⟨ht, hl⟩ | h
    · exact .inl ⟨ht, hl, next_call_recv env service fuel w 0 s hl⟩
    · exact .inr h
  by_cases hst : st = .SERVING
  · rw [hserving hst] at hpost ⊢
    exact ⟨_, tr1, rfl, fun _ => rfl, fun h => absurd hst h, hnext, w0, w1, _, _, h0,
      Event.perform_recvMsg hx, rfl, hpost⟩
  · rw [hother hst] at hpost ⊢
    exact ⟨_, tr1, rfl, fun h => absurd h hst, fun _ => rfl, hnext, w0, w1, _, _, h0,
      Event.perform_recvMsg hx, rfl, hpost⟩

theorem received_message_reported_stream_kept_witness :
    (clientHealthCheck recording "svc" 10 (scriptServingThenFail, [])).1 =
        (clientHealthCheck recording "svc" 10 (scriptServingThenFail, [])).1.take 5 ++
          .recvMsg 1 none .SERVING ::
            (clientHealthCheck recording "svc" 10 (scriptServingThenFail, [])).1.drop 6 ∧
      (clientHealthCheck recording "svc" 10 (scriptServingThenFail, [])).2.world.2.take 7 =
        [.ctxErr none, .report .Connecting none,
          .newStream healthCheckMethod (.clientStream 1) none, .sendMsg 1 "svc" none,
          .closeSend 1, .recvMsg 1 none .SERVING, .report .Ready none] ∧
      ∃ r rest, (clientHealthCheck recording "svc" 10 (scriptServingThenFail, [])).1.drop 6 =
          r :: rest ∧ r = .report .Ready none :=
  ⟨by decide, by decide,
    (received_message_reported_stream_kept recording "svc" 10 (scriptServingThenFail, [])
      ((clientHealthCheck recording "svc" 10 (scriptServingThenFail, [])).1.take 5)
      ((clientHealthCheck recording "svc" 10 (scriptServingThenFail, [])).1.drop 6) 1 .SERVING
      (by decide)).elim fun r h => h.elim fun rest h => ⟨r, rest, h.1, h.2.1 rfl⟩⟩

theorem StepShape.into_receiving {service : String} {l : Loc} {es : List Event} {k s : Nat}
    (h : StepShape service l es (.receiving k s)) :
    (0 < k ∧ ∃ p, es = p ++ [.closeSend s]) ∨
      (k = 0 ∧ ∃ st c e, es = [.recvMsg s none st, .report c e]) := by
  cases h with
  | firstEntered s err herr =>
    exact .inl ⟨by omega,
      [.ctxErr none, .report .Connecting none,
        .newStream healthCheckMethod (.clientStream s) none, .sendMsg s service err], rfl⟩
  | retryEntered k hk s err herr =>
    exact .inl ⟨by omega,
      [.backoff (k - 1) true, .ctxErr none, .report .Connecting none,
        .newStream healthCheckMethod (.clientStream s) none, .sendMsg s service err], rfl⟩
  | serving k s => exact .inr ⟨rfl, _, _, _, rfl⟩
  | notServing k s st hst => exact .inr ⟨rfl, _, _, _, rfl⟩

/-! ## C5: a failed receive -/

/-- C5 fails as stated: in this run the stream delivers two messages, then
`RecvMsg` fails with an error other than Unimplemented; after the
`TransientFailure` report the next stream is opened with no call of
`backoffFunc` in between. -/
theorem receive_failure_without_backoff_counterexample :
    ((clientHealthCheck scripted "svc" 10 scriptServingThenFail).1.drop 5).take 9 =
      [.recvMsg 1 none .SERVING, .report .Ready none,
        .recvMsg 1 none .NOT_SERVING,
        .report .TransientFailure (some (.errorfStatus fmtNotServing .NOT_SERVING)),
        .recvMsg 1 (some (.other "reset")) .UNKNOWN,
        .report .TransientFailure (some (.errorfErr fmtRecvError (.other "reset"))),
        .ctxErr none, .report .Connecting none,
        .newStream healthCheckMethod (.clientStream 2) none] := by
  decide

/-- C5, amended: whenever `RecvMsg` returns an error `e` other than
Unimplemented, the next call is `setConnectivityState(TransientFailure,
err)` with `err` wrapping `e`.  What follows depends on the failed stream:
if the failing `RecvMsg` was the first one on it (the call before it is the
stream's `CloseSend`), `tryCnt > 0` and the next call is `backoffFunc`; if a
response had been received on it (the calls before the failing `RecvMsg`
are a successful `RecvMsg` on the stream and its report), `tryCnt = 0` and
the next call is `ctx.Err()` of the next attempt, with no backoff wait.
In both cases either the calls after the report start with that next call,
or the run was cut there and one more loop iteration starts with it.
The calls of the trace are the calls the engine
made on its environment: performed in that order from the initial world,
they return what the trace records and leave the world in which the run
ends. -/
theorem receive_failure_reported_then_backoff_unless_message {σ : Type} (env : Env σ)
    (service : String) (fuel : Nat) (w : σ) (pre post : List Event) (s : Nat) (e : GoError)
    (st : ServingStatus) (hcode : statusCode (some e) ≠ .Unimplemented)
    (htr : (clientHealthCheck env service fuel w).1 = pre ++ .recvMsg s (some e) st :: post) :
    ∃ rest, post = .report .TransientFailure (some (.errorfErr fmtRecvError e)) :: rest ∧
      (((∃ p, pre = p ++ [.closeSend s]) ∧
          ((rest = [] ∧ ∃ k, 0 < k ∧
              (clientHealthCheck env service fuel w).2.loc = .retryConnection k ∧
              ∃ b more, (clientHealthCheck env service (fuel + 1) w).1 =
                (clientHealthCheck env service fuel w).1 ++ .backoff (k - 1) b :: more) ∨
            ∃ k b r, rest = .backoff k b :: r)) ∨
        ((∃ p st1 c1 e1, pre = p ++ [.recvMsg s none st1, .report c1 e1]) ∧
          ((rest = [] ∧ (clientHealthCheck env service fuel w).2.loc = .retryConnection 0 ∧
              ∃ c more, (clientHealthCheck env service (fuel + 1) w).1 =
                (clientHealthCheck env service fuel w).1 ++ .ctxErr c :: more) ∨
            ∃ c r, rest = .ctxErr c :: r))) ∧
      replay env w (clientHealthCheck env service fuel w).1 =
        some (clientHealthCheck env service fuel w).2.world := by
  obtain ⟨lm, lm1, es, pre0, pre1, post1, tr1, h0, hs, h1, hes, rfl, rfl⟩ :=
    (clientHealthCheck_shape env service fuel w).locate pre post _ htr
  obtain ⟨rfl, rfl, k, rfl, rfl⟩ := hs.recv_failed pre1 post1 s e st hcode hes
  refine ⟨tr1, rfl, ?_, clientHealthCheck_replay env service fuel w⟩
  rcases h0.last with ⟨-, h⟩ | ⟨tr0, lm, es1, -, hs1, rfl⟩
  · cases h
  · rcases hs1.into_receiving with ⟨hk, p, rfl⟩ | ⟨rfl, st1, c1, e1, rfl⟩
    · left
      refine ⟨⟨tr0 ++ p, by simp⟩, ?_⟩
      rcases h1.head_backoff hk with ⟨rfl, hl⟩ | ⟨b, r, rfl⟩
      · exact .inl ⟨rfl, k, hk, hl, next_call_backoff env service fuel w k hk hl⟩
      · exact .inr ⟨k - 1, b, r, rfl⟩
    · right
      refine ⟨⟨tr0, st1, c1, e1, by simp⟩, ?_⟩
      rcases h1.head_ctx with ⟨rfl, hl⟩ | ⟨c, r, rfl⟩
      · exact .inl ⟨rfl, hl, next_call_ctx env service fuel w hl⟩
      · exact .inr ⟨c, r, rfl⟩

theorem receive_failure_reported_then_backoff_unless_message_witness :
    statusCode (some (.other "reset")) ≠ .Unimplemented ∧
      (clientHealthCheck recording "svc" 10 (scriptServingThenFail, [])).1 =
        (clientHealthCheck recording "svc" 10 (scriptServingThenFail, [])).1.take 16 ++
          .recvMsg 2 (some (.other "reset")) .UNKNOWN ::
            (clientHealthCheck recording "svc" 10 (scriptServingThenFail, [])).1.drop 17 ∧
      ∃ rest, (clientHealthCheck recording "svc" 10 (scriptServingThenFail, [])).1.drop 17 =
        .report .TransientFailure (some (.errorfErr fmtRecvError (.other "reset"))) :: rest :=
  ⟨by decide, by decide,
    (receive_failure_reported_then_backoff_unless_message scripted "svc" 10
      scriptServingThenFail
      ((clientHealthCheck recording "svc" 10 (scriptServingThenFail, [])).1.take 16)
      ((clientHealthCheck recording "svc" 10 (scriptServingThenFail, [])).1.drop 17) 2
      (.other "reset") .UNKNOWN (by decide) (by decide)).elim fun rest h => ⟨rest, h.1⟩⟩

/-! ## The retry counter along a run -/

theorem backoffArgs_append (a b : List Event) :
    backoffArgs (a ++ b) = backoffArgs a ++ backoffArgs b := by
  simp [backoffArgs]

theorem attempts_append (a b : List Event) : attempts (a ++ b) = attempts a + attempts b := by
  simp [attempts]

theorem min_one_of_pos {k : Nat} (hk : 0 < k) : min k 1 = 1 := by
  omega

theorem range'_pred_cons {k : Nat} (hk : 0 < k) (n : Nat) :
    (k - 1) :: List.range' k n = List.range' (k - 1) (n + 1) := by
  obtain ⟨j, rfl⟩ : ∃ j, k = j + 1 := ⟨k - 1, by omega⟩
  rfl

theorem StepShape.backoff_args_before {service : String} {l l1 : Loc} {es : List Event}
    (h : StepShape service l es l1) (pre post : List Event) (m : String) (raw : RawStream)
    (err : Option GoError) (hes : es = pre ++ .newStream m raw err :: post) :
    backoffArgs pre = List.range' (l.counter - 1) (attempts pre + min l.counter 1) := by
  rw [← mem_splits] at hes
  cases h <;> simp [splits] at hes
  all_goals obtain ⟨rfl, -, -⟩ := hes
  all_goals
    simp [backoffArgs, attempts, Loc.counter, Event.backoffArg, Event.isNewStream,
      min_one_of_pos, *]

theorem StepShape.backoff_args_step {service : String} {l l1 : Loc} {es : List Event}
    (h : StepShape service l es l1) (hmsg : es.any Event.isMessage = false)
    (hl1 : ∀ r, l1 ≠ .returned r) (n : Nat) :
    backoffArgs es ++ List.range' (l1.counter - 1) (n + min l1.counter 1) =
      List.range' (l.counter - 1) (attempts es + n + min l.counter 1) := by
  cases h <;>
    simp [backoffArgs, attempts, Loc.counter, Event.backoffArg, Event.isNewStream,
      Event.isMessage, min_one_of_pos, *] at *
  all_goals
    first
    | omega
    | (rw [show 1 + n + 1 = (n + 1) + 1 by omega]; exact range'_pred_cons ‹0 < _› _)

theorem RunShape.backoff_args {service : String} {l l2 : Loc} {tr : List Event}
    (h : RunShape service l tr l2) (pre post : List Event) (m : String) (raw : RawStream)
    (err : Option GoError) (htr : tr = pre ++ .newStream m raw err :: post)
    (hmsg : pre.any Event.isMessage = false) :
    backoffArgs pre = List.range' (l.counter - 1) (attempts pre + min l.counter 1) := by
  induction h generalizing pre with
  | done => simp at htr
  | iter l l1 l2 es tr hs hr ih =>
    have hin : ∀ a, pre = es ++ a → tr = a ++ .newStream m raw err :: post →
        backoffArgs pre =
          List.range' (l.counter - 1) (attempts pre + min l.counter 1) := by
      rintro a rfl ha
      have hes : es.any Event.isMessage = false := by
        simp only [List.any_append, Bool.or_eq_false_iff] at hmsg
        exact hmsg.1
      have ha2 : a.any Event.isMessage = false := by
        simp only [List.any_append, Bool.or_eq_false_iff] at hmsg
        exact hmsg.2
      have hl1 : ∀ r, l1 ≠ .returned r := by
        rintro r rfl
        have := hr.of_returned.1
        simp [ha] at this
      rw [backoffArgs_append, ih a ha ha2, attempts_append, hs.backoff_args_step hes hl1]
    rcases List.append_eq_append_iff.1 htr with ⟨a, rfl, ha⟩ | ⟨c, hc, hx⟩
    · exact hin a rfl ha
    · cases c with
      | nil =>
        simp at hc hx
        exact hin [] (by simp [hc]) (by simpa using hx.symm)
      | cons y c =>
        simp at hx
        obtain ⟨rfl, rfl⟩ := hx
        exact hs.backoff_args_before pre c m raw err hc

theorem RunShape.first_backoff_arg {service : String} {l l2 : Loc} {tr : List Event}
    (h : RunShape service l tr l2) (hl : l.counter ≤ 1) (k : Nat)
    (hk : (backoffArgs tr).head? = some k) : k = 0 := by
  induction h with
  | done => simp [backoffArgs] at hk
  | iter l l1 l2 es tr hs hr ih =>
    rw [backoffArgs_append] at hk
    cases hs <;>
      simp [backoffArgs, Loc.counter, Event.backoffArg] at hk hl ih
    all_goals first | omega | (apply ih <;> assumption)

theorem RunShape.attempt_before_receiving {service : String} {k0 k s : Nat}
    {tr : List Event} (h : RunShape service (.retryConnection k0) tr (.receiving k s)) :
    1 ≤ attempts tr := by
  cases h with
  | iter _ l1 _ es tr hs hr =>
    rw [attempts_append]
    cases hs <;> first
      | exact absurd hr.of_returned.2 (by simp)
      | (simp [attempts, Event.isNewStream])

/-! ## C6: the retry count passed to `backoffFunc` -/

/-- C6: for any call `x` of a run, with `pre` the calls before it and `post`
the calls after it.  If `x` is the first `newStream` call, no `backoffFunc`
call precedes it.  If `x` is a `newStream` call and no response message was
received before it (every earlier attempt failed, whether at `newStream`, at
`SendMsg` after a successful open, or at the first `RecvMsg`), then with `n`
the number of earlier attempts the `backoffFunc` calls before `x` are
exactly `n`, with arguments `0, 1, ..., n-1` in that order.  If `x` is a
received response message, the first `backoffFunc` call after it, if there
is one, has argument `0`.  The calls of the trace are the calls the engine
made on its environment: performed in that order from the initial world,
they return what the trace records and leave the world in which the run
ends. -/
theorem backoff_counts_failures_since_last_message {σ : Type} (env : Env σ)
    (service : String) (fuel : Nat) (w : σ) (pre post : List Event) (x : Event)
    (htr : (clientHealthCheck env service fuel w).1 = pre ++ x :: post) :
    (∀ m raw err, x = .newStream m raw err → attempts pre = 0 → backoffArgs pre = []) ∧
      (∀ m raw err, x = .newStream m raw err → pre.any Event.isMessage = false →
        backoffArgs pre = List.range (attempts pre)) ∧
      (∀ s st, x = .recvMsg s none st →
        ∀ k, (backoffArgs post).head? = some k → k = 0) ∧
      replay env w (clientHealthCheck env service fuel w).1 =
        some (clientHealthCheck env service fuel w).2.world := by
  have hrun := clientHealthCheck_shape env service fuel w
  have hgen : ∀ m raw err, x = .newStream m raw err → pre.any Event.isMessage = false →
      backoffArgs pre = List.range (attempts pre) := by
    rintro m raw err rfl hmsg
    have := hrun.backoff_args pre post m raw err htr hmsg
    simpa [Loc.counter, List.range_eq_range'] using this
  refine ⟨?_, hgen, ?_, clientHealthCheck_replay env service fuel w⟩
  · rintro m raw err rfl hzero
    have hmsg : pre.any Event.isMessage = false := by
      by_contra hne
      obtain ⟨ev, hev, hm⟩ : ∃ ev, ev ∈ pre ∧ ev.isMessage = true := by
        simpa using hne
      obtain ⟨p1, p2, rfl⟩ := List.append_of_mem hev
      obtain ⟨s, st, rfl⟩ : ∃ s st, ev = .recvMsg s none st := by
        cases ev <;> simp [Event.isMessage] at hm
        rename_i s err st
        cases err <;> simp at hm
        exact ⟨s, st, rfl⟩
      obtain ⟨lm, lm1, es, pre0, pre1, post1, tr1, h0, hs, h1, hes, rfl, -⟩ :=
        hrun.locate p1 (p2 ++ .newStream m raw err :: post) _ (by simpa using htr)
      obtain ⟨rfl, -, ⟨k, rfl⟩, -⟩ := hs.recv_message pre1 post1 s st hes
      have := h0.attempt_before_receiving
      simp only [attempts_append] at hzero
      omega
    rw [hgen m raw err rfl hmsg, hzero]
    rfl
  · rintro s st rfl k hk
    obtain ⟨lm, lm1, es, pre0, pre1, post1, tr1, -, hs, h1, hes, -, rfl⟩ :=
      hrun.locate pre post _ htr
    obtain ⟨-, rfl, -, hserving, hother⟩ := hs.recv_message pre1 post1 s st hes
    refine h1.first_backoff_arg (by simp [Loc.counter]) k ?_
    by_cases hst : st = .SERVING
    · simpa [hserving hst, backoffArgs, Event.backoffArg] using hk
    · simpa [hother hst, backoffArgs, Event.backoffArg] using hk

theorem backoff_counts_failures_since_last_message_witness :
    (clientHealthCheck recording "svc" 3 (scriptOpenAndSendFail, [])).1 =
        (clientHealthCheck recording "svc" 3 (scriptOpenAndSendFail, [])).1.take 11 ++
          .newStream healthCheckMethod (.clientStream 4) none ::
            (clientHealthCheck recording "svc" 3 (scriptOpenAndSendFail, [])).1.drop 12 ∧
      attempts ((clientHealthCheck recording "svc" 3 (scriptOpenAndSendFail, [])).1.take 11) = 2 ∧
      backoffArgs ((clientHealthCheck recording "svc" 3 (scriptOpenAndSendFail, [])).1.take 11) =
        List.range
          (attempts
            ((clientHealthCheck recording "svc" 3 (scriptOpenAndSendFail, [])).1.take 11)) :=
  ⟨by decide, by decide,
    (backoff_counts_failures_since_last_message recording "svc" 3 (scriptOpenAndSendFail, [])
      ((clientHealthCheck recording "svc" 3 (scriptOpenAndSendFail, [])).1.take 11)
      ((clientHealthCheck recording "svc" 3 (scriptOpenAndSendFail, [])).1.drop 12)
      (.newStream healthCheckMethod (.clientStream 4) none) (by decide)).2.1
      healthCheckMethod (.clientStream 4) none rfl (by decide)⟩

/-! ## C7: Connecting reports and stream-open attempts -/

theorem StepShape.before_new_stream {service : String} {l l1 : Loc} {es : List Event}
    (h : StepShape service l es l1) (pre post : List Event) (m : String) (raw : RawStream)
    (err : Option GoError) (hes : es = pre ++ .newStream m raw err :: post) :
    ∃ p, pre = p ++ [.report .Connecting none] := by
  rw [← mem_splits] at hes
  cases h <;> simp [splits] at hes <;> obtain ⟨rfl, -, -⟩ := hes
  · exact ⟨[.ctxErr none], rfl⟩
  · exact ⟨[.ctxErr none], rfl⟩
  · exact ⟨[.ctxErr none], rfl⟩
  · exact ⟨[.ctxErr none], rfl⟩
  · exact ⟨[_, .ctxErr none], rfl⟩
  · exact ⟨[_, .ctxErr none], rfl⟩
  · exact ⟨[_, .ctxErr none], rfl⟩
  · exact ⟨[_, .ctxErr none], rfl⟩

theorem StepShape.after_connecting {service : String} {l l1 : Loc} {es : List Event}
    (h : StepShape service l es l1) (pre post : List Event) (e : Option GoError)
    (hes : es = pre ++ .report .Connecting e :: post) :
    e = none ∧ ∃ m raw err rest, post = .newStream m raw err :: rest := by
  rw [← mem_splits] at hes
  cases h <;> simp [splits] at hes <;> obtain ⟨-, rfl, rfl⟩ := hes <;>
    exact ⟨rfl, _, _, _, _, rfl⟩

theorem RunShape.connecting_count {service : String} {l l2 : Loc} {tr : List Event}
    (h : RunShape service l tr l2) : tr.countP Event.isConnecting = attempts tr := by
  induction h with
  | done => rfl
  | iter l l1 l2 es tr hs hr ih =>
    rw [attempts_append, List.countP_append, ih]
    cases hs <;> simp [attempts, Event.isConnecting, Event.isNewStream]

theorem RunShape.first_report {service : String} {k : Nat} {l2 : Loc} {tr : List Event}
    (h : RunShape service (.retryConnection k) tr l2) (r : Event)
    (hr : (tr.filter Event.isReport).head? = some r) : r = .report .Connecting none := by
  cases h with
  | done => simp at hr
  | iter _ l1 _ es tr hs hrun =>
    cases hs <;> first
      | (simp [Event.isReport] at hr
         exact hr.symm)
      | (rw [hrun.of_returned.1] at hr
         simp [Event.isReport] at hr)

/-- C7: in every run, every `newStream` call is immediately preceded by the
report `(Connecting, nil)`; every `Connecting` report carries a nil error
and is immediately followed by a `newStream` call; the number of
`Connecting` reports equals the number of `newStream` calls; and the first
report of the run, if the run reports at all, is `(Connecting, nil)`.
The calls of the trace are the calls the engine
made on its environment: performed in that order from the initial world,
they return what the trace records and leave the world in which the run
ends. -/
theorem connecting_reported_before_each_attempt {σ : Type} (env : Env σ) (service : String)
    (fuel : Nat) (w : σ) :
    (∀ pre post m raw err,
        (clientHealthCheck env service fuel w).1 = pre ++ .newStream m raw err :: post →
        ∃ p, pre = p ++ [.report .Connecting none]) ∧
      (∀ pre post e,
        (clientHealthCheck env service fuel w).1 = pre ++ .report .Connecting e :: post →
        e = none ∧ ∃ m raw err rest, post = .newStream m raw err :: rest) ∧
      (clientHealthCheck env service fuel w).1.countP Event.isConnecting =
        attempts (clientHealthCheck env service fuel w).1 ∧
      (∀ r, ((clientHealthCheck env service fuel w).1.filter Event.isReport).head? = some r →
        r = .report .Connecting none) ∧
      replay env w (clientHealthCheck env service fuel w).1 =
        some (clientHealthCheck env service fuel w).2.world := by
  have hrun := clientHealthCheck_shape env service fuel w
  refine ⟨?_, ?_, hrun.connecting_count, hrun.first_report,
    clientHealthCheck_replay env service fuel w⟩
  · intro pre post m raw err htr
    obtain ⟨lm, lm1, es, pre0, pre1, post1, tr1, -, hs, -, hes, rfl, -⟩ :=
      hrun.locate pre post _ htr
    obtain ⟨p, rfl⟩ := hs.before_new_stream pre1 post1 m raw err hes
    exact ⟨pre0 ++ p, by simp⟩
  · intro pre post e htr
    obtain ⟨lm, lm1, es, pre0, pre1, post1, tr1, -, hs, -, hes, -, rfl⟩ :=
      hrun.locate pre post _ htr
    obtain ⟨he, m, raw, err, rest, rfl⟩ := hs.after_connecting pre1 post1 e hes
    exact ⟨he, m, raw, err, rest ++ tr1, rfl⟩

theorem connecting_reported_before_each_attempt_witness :
    (clientHealthCheck recording "svc" 3 (scriptOpenAndSendFail, [])).1 =
        (clientHealthCheck recording "svc" 3 (scriptOpenAndSendFail, [])).1.take 6 ++
          .newStream healthCheckMethod (.clientStream 3) none ::
            (clientHealthCheck recording "svc" 3 (scriptOpenAndSendFail, [])).1.drop 7 ∧
      ∃ p, (clientHealthCheck recording "svc" 3 (scriptOpenAndSendFail, [])).1.take 6 =
        p ++ [.report .Connecting none] :=
  ⟨by decide,
    (connecting_reported_before_each_attempt recording "svc" 3 (scriptOpenAndSendFail, [])).1
      ((clientHealthCheck recording "svc" 3 (scriptOpenAndSendFail, [])).1.take 6)
      ((clientHealthCheck recording "svc" 3 (scriptOpenAndSendFail, [])).1.drop 7)
      healthCheckMethod (.clientStream 3) none (by decide)⟩

/-! ## C8: cancellation -/

theorem exec_returned {σ : Type} (env : Env σ) (service : String) (n : Nat)
    (r : Option GoError) (w : σ) :
    exec env service n ⟨.returned r, w⟩ = ([], ⟨.returned r, w⟩) := by
  cases n <;> rfl

/-- C8: cancellation observed at a checkpoint is silent.  If `ctx.Err()` is
non-nil at the check that precedes an attempt, or if `backoffFunc` returns
false, no call follows (in particular no `setConnectivityState` and no
`newStream`) and the function has returned nil.  This includes the very
first attempt: if the context is cancelled at the start, the only call of
the run is that `ctx.Err()`.  Nothing is called on the environment after the
cancellation is observed: the world in which the run ends is the world that
this `ctx.Err()` or `backoffFunc` call left. -/
theorem cancellation_is_silent {σ : Type} (env : Env σ) (service : String) (fuel : Nat)
    (w : σ) :
    (∀ pre post e,
        (clientHealthCheck env service fuel w).1 = pre ++ .ctxErr (some e) :: post →
        post = [] ∧ (clientHealthCheck env service fuel w).2.result = some none ∧
          ∃ w0 w1, replay env w pre = some w0 ∧ env.ctxErr w0 = (some e, w1) ∧
            (clientHealthCheck env service fuel w).2.world = w1) ∧
      (∀ pre post k,
        (clientHealthCheck env service fuel w).1 = pre ++ .backoff k false :: post →
        post = [] ∧ (clientHealthCheck env service fuel w).2.result = some none ∧
          ∃ w0 w1, replay env w pre = some w0 ∧ env.backoffFunc w0 k = (false, w1) ∧
            (clientHealthCheck env service fuel w).2.world = w1) ∧
      (∀ e, (env.ctxErr w).1 = some e → 0 < fuel →
        (clientHealthCheck env service fuel w).1 = [.ctxErr (some e)] ∧
          (clientHealthCheck env service fuel w).2.result = some none ∧
          (clientHealthCheck env service fuel w).2.world = (env.ctxErr w).2) := by
  have hrun := clientHealthCheck_shape env service fuel w
  have hrep := clientHealthCheck_replay env service fuel w
  refine ⟨?_, ?_, ?_⟩
  · intro pre post e htr
    rw [htr] at hrep
    obtain ⟨lm, lm1, es, pre0, pre1, post1, tr1, -, hs, h1, hes, -, rfl⟩ :=
      hrun.locate pre post _ htr
    obtain ⟨rfl, rfl⟩ := hs.ctx_cancelled pre1 post1 e hes
    obtain ⟨rfl, hl⟩ := h1.of_returned
    obtain ⟨w0, w1, h0, hx, hpost⟩ := replay_split env w _ pre _ _ hrep
    exact ⟨rfl, Config.result_of_loc hl, w0, w1, h0, Event.perform_ctxErr hx,
      (Option.some.inj hpost).symm⟩
  · intro pre post k htr
    rw [htr] at hrep
    obtain ⟨lm, lm1, es, pre0, pre1, post1, tr1, -, hs, h1, hes, -, rfl⟩ :=
      hrun.locate pre post _ htr
    obtain ⟨rfl, rfl⟩ := hs.backoff_interrupted pre1 post1 k hes
    obtain ⟨rfl, hl⟩ := h1.of_returned
    obtain ⟨w0, w1, h0, hx, hpost⟩ := replay_split env w _ pre _ _ hrep
    exact ⟨rfl, Config.result_of_loc hl, w0, w1, h0, Event.perform_backoff hx,
      (Option.some.inj hpost).symm⟩
  · intro e he hfuel
    obtain ⟨n, rfl⟩ : ∃ n, fuel = n + 1 := ⟨fuel - 1, by omega⟩
    have hstep : step env service ⟨.retryConnection 0, w⟩ =
        ([.ctxErr (some e)], ⟨.returned none, (env.ctxErr w).2⟩) := by
      simp [step, connectStep, openStep, he]
    simp [clientHealthCheck, exec, hstep, exec_returned, Config.result]

theorem cancellation_is_silent_witness :
    (clientHealthCheck recording "svc" 10 (scriptServingThenFail, [])).1 =
        (clientHealthCheck recording "svc" 10 (scriptServingThenFail, [])).1.take 19 ++
          .ctxErr (some (.other "context canceled")) :: [] ∧
      (clientHealthCheck recording "svc" 10 (scriptServingThenFail, [])).2.world.2.getLast? =
        some (.ctxErr (some (.other "context canceled"))) ∧
      (([] : List Event) = [] ∧
        (clientHealthCheck recording "svc" 10 (scriptServingThenFail, [])).2.result =
          some none) :=
  ⟨by decide, by decide,
    ⟨((cancellation_is_silent recording "svc" 10 (scriptServingThenFail, [])).1
        ((clientHealthCheck recording "svc" 10 (scriptServingThenFail, [])).1.take 19) []
        (.other "context canceled") (by decide)).1,
      ((cancellation_is_silent recording "svc" 10 (scriptServingThenFail, [])).1
        ((clientHealthCheck recording "svc" 10 (scriptServingThenFail, [])).1.take 19) []
        (.other "context canceled") (by decide)).2.1⟩⟩

/-! ## C9: a stream handle of the wrong type -/

/-- C9: when `newStream` returns, without error, a value that is not a
`grpc.ClientStream`, whatever attempts came before: the calls after it are
exactly one report `(Ready, nil)` and nothing else (no backoff, no
`newStream`, no `SendMsg`, no `RecvMsg`), and the function has returned a
non-nil error, the one built from the returned value.  The report is a call
of the sink: with `w0` the world left by the calls before the `newStream`
and `w1` the world that `newStream` left, the world in which the run ends
is the one that `setConnectivityState(Ready, nil)`, called in `w1`,
leaves. -/
theorem wrong_stream_type_fails_open {σ : Type} (env : Env σ) (service : String)
    (fuel : Nat) (w : σ) (pre post : List Event) (m : String) (raw : RawStream)
    (hraw : ∀ s, raw ≠ .clientStream s)
    (htr : (clientHealthCheck env service fuel w).1 = pre ++ .newStream m raw none :: post) :
    post = [.report .Ready none] ∧
      (clientHealthCheck env service fuel w).2.result =
        some (some (.errorfRaw fmtWantClientStream raw)) ∧
      ∃ w0 w1, replay env w pre = some w0 ∧ env.newStream w0 m = ((raw, none), w1) ∧
        (clientHealthCheck env service fuel w).2.world =
          env.setConnectivityState w1 .Ready none := by
  have hrep := clientHealthCheck_replay env service fuel w
  rw [htr] at hrep
  obtain ⟨lm, lm1, es, pre0, pre1, post1, tr1, -, hs, h1, hes, -, rfl⟩ :=
    (clientHealthCheck_shape env service fuel w).locate pre post _ htr
  obtain ⟨rfl, rfl⟩ := hs.wrong_type pre1 post1 m raw hraw hes
  obtain ⟨rfl, hl⟩ := h1.of_returned
  obtain ⟨w0, w1, h0, hx, hpost⟩ := replay_split env w _ pre _ _ hrep
  refine ⟨by simp, Config.result_of_loc hl, w0, w1, h0, Event.perform_newStream hx, ?_⟩
  simp only [List.append_nil, replay_report] at hpost
  exact (Option.some.inj hpost).symm

theorem wrong_stream_type_fails_open_witness :
    (∀ s, RawStream.other "chan int" ≠ .clientStream s) ∧
      (clientHealthCheck recording "svc" 5 (scriptWrongType, [])).1 =
        [.ctxErr none, .report .Connecting none,
          .newStream healthCheckMethod .nil (some (.other "unavailable")),
          .backoff 0 true, .ctxErr none, .report .Connecting none] ++
          .newStream healthCheckMethod (.other "chan int") none ::
            [.report .Ready none] ∧
      (clientHealthCheck recording "svc" 5 (scriptWrongType, [])).2.world.2.getLast? =
        some (.report .Ready none) ∧
      (clientHealthCheck recording "svc" 5 (scriptWrongType, [])).2.result =
        some (some (.errorfRaw fmtWantClientStream (.other "chan int"))) :=
  ⟨by simp, by decide, by decide,
    (wrong_stream_type_fails_open recording "svc" 5 (scriptWrongType, [])
      [.ctxErr none, .report .Connecting none,
        .newStream healthCheckMethod .nil (some (.other "unavailable")),
        .backoff 0 true, .ctxErr none, .report .Connecting none]
      [.report .Ready none] healthCheckMethod (.other "chan int") (by simp)
      (by decide)).2.1⟩

/-! ## C10: the outcome of `SendMsg` -/

theorem RunShape.head_attempt {service : String} {k : Nat} {l2 : Loc} {tr : List Event}
    (h : RunShape service (.retryConnection k) tr l2) (hk : 0 < k) :
    (tr = [] ∧ l2 = .retryConnection k) ∨
      tr = [.backoff (k - 1) false] ∨
      (∃ c, tr = [.backoff (k - 1) true, .ctxErr (some c)]) ∨
      ∃ m raw err rest,
        tr = .backoff (k - 1) true :: .ctxErr none :: .report .Connecting none ::
          .newStream m raw err :: rest := by
  cases h with
  | done => exact .inl ⟨rfl, rfl⟩
  | iter _ l1 _ es tr hs hr =>
    right
    cases hs <;> first
      | omega
      | (rw [hr.of_returned.1]
         simp)
      | exact .inr (.inr ⟨_, _, _, _, rfl⟩)

/-- C10: for every `SendMsg` call of a run.  If it returned nil or `io.EOF`,
the next call is `CloseSend` on the same stream and the engine is then at
the head of the receive loop on that stream: the call after it is `RecvMsg`
on that stream (no backoff and no `newStream` in between).  If it returned
any other error, the engine is at the head of the retry loop with
`tryCnt > 0`: no `RecvMsg` is made on the stream, the next call is
`backoffFunc`, and a `newStream` call comes only after that backoff wait
returned true and `ctx.Err()` returned nil.  "The next call" means that the
calls that follow start with it, or that the run was cut there and one more
loop iteration starts with it.  The calls of the trace are the calls the engine
made on its environment: performed in that order from the initial world,
they return what the trace records and leave the world in which the run
ends. -/
theorem send_outcome_decides_next_step {σ : Type} (env : Env σ) (service : String)
    (fuel : Nat) (w : σ) (pre post : List Event) (s : Nat) (svc : String)
    (err : Option GoError)
    (htr : (clientHealthCheck env service fuel w).1 = pre ++ .sendMsg s svc err :: post) :
    (err = none ∨ err = some .eof →
        ∃ rest, post = .closeSend s :: rest ∧
          ((rest = [] ∧ ∃ k, (clientHealthCheck env service fuel w).2.loc = .receiving k s ∧
              ∃ e st more, (clientHealthCheck env service (fuel + 1) w).1 =
                (clientHealthCheck env service fuel w).1 ++ .recvMsg s e st :: more) ∨
            ∃ e st r, rest = .recvMsg s e st :: r)) ∧
      (∀ e, err = some e → e ≠ .eof →
        (post = [] ∧
            ∃ k, 0 < k ∧ (clientHealthCheck env service fuel w).2.loc = .retryConnection k ∧
              ∃ b more, (clientHealthCheck env service (fuel + 1) w).1 =
                (clientHealthCheck env service fuel w).1 ++ .backoff (k - 1) b :: more) ∨
          (∃ k, post = [.backoff k false]) ∨
          (∃ k c, post = [.backoff k true, .ctxErr (some c)]) ∨
          ∃ k m raw err2 rest,
            post = .backoff k true :: .ctxErr none :: .report .Connecting none ::
              .newStream m raw err2 :: rest) ∧
      replay env w (clientHealthCheck env service fuel w).1 =
        some (clientHealthCheck env service fuel w).2.world := by
  obtain ⟨lm, lm1, es, pre0, pre1, post1, tr1, -, hs, h1, hes, -, rfl⟩ :=
    (clientHealthCheck_shape env service fuel w).locate pre post _ htr
  refine ⟨?_, ?_, clientHealthCheck_replay env service fuel w⟩
  · intro herr
    obtain ⟨rfl, k, -, rfl⟩ := hs.send_done pre1 post1 s svc err herr hes
    refine ⟨tr1, rfl, ?_⟩
    rcases h1.head_recv with ⟨rfl, hl⟩ | ⟨e, st, r, rfl⟩
    · exact .inl ⟨rfl, k, hl, next_call_recv env service fuel w k s hl⟩
    · exact .inr ⟨e, st, r, rfl⟩
  · rintro e rfl he
    obtain ⟨rfl, k, hk, rfl⟩ := hs.send_failed pre1 post1 s svc e he hes
    rcases h1.head_attempt hk with
      ⟨rfl, hl⟩ | rfl | ⟨c, rfl⟩ | ⟨m, raw, err2, rest, rfl⟩
    · exact .inl ⟨rfl, k, hk, hl, next_call_backoff env service fuel w k hk hl⟩
    · exact .inr (.inl ⟨_, rfl⟩)
    · exact .inr (.inr (.inl ⟨_, c, rfl⟩))
    · exact .inr (.inr (.inr ⟨_, m, raw, err2, rest, rfl⟩))

theorem send_outcome_decides_next_step_witness :
    (clientHealthCheck recording "svc" 10 (scriptServingThenFail, [])).1 =
        (clientHealthCheck recording "svc" 10 (scriptServingThenFail, [])).1.take 14 ++
          .sendMsg 2 "svc" (some .eof) ::
            (clientHealthCheck recording "svc" 10 (scriptServingThenFail, [])).1.drop 15 ∧
      ∃ rest, (clientHealthCheck recording "svc" 10 (scriptServingThenFail, [])).1.drop 15 =
        .closeSend 2 :: rest :=
  ⟨by decide,
    ((send_outcome_decides_next_step recording "svc" 10 (scriptServingThenFail, [])
      ((clientHealthCheck recording "svc" 10 (scriptServingThenFail, [])).1.take 14)
      ((clientHealthCheck recording "svc" 10 (scriptServingThenFail, [])).1.drop 15) 2 "svc"
      (some .eof) (by decide)).1 (.inr rfl)).elim fun rest h => ⟨rest, h.1⟩⟩

/-! ## C11: removing a subconnection -/

/-- What `RemoveSubConn(sc)` does in any state of the two maps, kept in step
or not.  When a non-nil cleanup function `c` is recorded for `sc`, it calls
`c` exactly once, then delegates, and `sc` has no entry in either map
afterwards.  When none is recorded (no entry, or a nil entry), it calls no
cleanup function and leaves both maps exactly as they were.  In both cases
the entries of every other subconnection are unchanged, and
`ClientConn.RemoveSubConn(sc)` is called exactly once, as the last call. -/
theorem wrappedCC.RemoveSubConn_effect (w : wrappedCC) (sc : Nat) :
    (∀ c, w.subConnClosers.index sc = some c →
        (w.RemoveSubConn sc).1 = [.closer c, .removeSubConn sc] ∧
          (w.RemoveSubConn sc).2.subConnClosers sc = none ∧
          (w.RemoveSubConn sc).2.subConnProducers sc = none) ∧
      (w.subConnClosers.index sc = none →
        (w.RemoveSubConn sc).1 = [.removeSubConn sc] ∧ (w.RemoveSubConn sc).2 = w) ∧
      (w.subConnClosers sc = none → w.subConnProducers sc = none →
        (w.RemoveSubConn sc).2.subConnClosers sc = none ∧
          (w.RemoveSubConn sc).2.subConnProducers sc = none) ∧
      (∀ k, k ≠ sc →
        (w.RemoveSubConn sc).2.subConnClosers k = w.subConnClosers k ∧
          (w.RemoveSubConn sc).2.subConnProducers k = w.subConnProducers k) ∧
      (w.RemoveSubConn sc).1.count (.removeSubConn sc) = 1 ∧
      (w.RemoveSubConn sc).1.getLast? = some (.removeSubConn sc) := by
  unfold wrappedCC.RemoveSubConn
  cases h : w.subConnClosers.index sc with
  | none =>
    refine ⟨by simp, fun _ => ⟨rfl, rfl⟩, fun h1 h2 => ⟨h1, h2⟩,
      fun k _ => ⟨rfl, rfl⟩, ?_, ?_⟩
    · simp
    · simp
  | some c =>
    refine ⟨?_, by simp, ?_, ?_, ?_, ?_⟩
    · intro c2 hc
      cases hc
      simp [GoMap.delete]
    · intro _ _
      simp [GoMap.delete]
    · intro k hk
      simp [GoMap.delete, hk]
    · simp [List.count_cons]
    · simp

theorem wrappedCC.paired_built : wrappedCC.built.paired := by
  intro k _
  exact ⟨rfl, rfl⟩

theorem wrappedCC.paired_record (w : wrappedCC) (sc : Nat) (p : Option Nat) (close : Nat)
    (hw : w.paired) : (w.record sc p (some close)).paired := by
  intro k hk
  by_cases h : k = sc
  · subst h
    simp [wrappedCC.record, GoMap.insert, GoMap.index] at hk
  · have hk2 : w.subConnClosers.index k = none := by
      simpa [wrappedCC.record, GoMap.insert, GoMap.index, h] using hk
    simpa [wrappedCC.record, GoMap.insert, h] using hw k hk2

theorem wrappedCC.paired_RemoveSubConn (w : wrappedCC) (sc : Nat) (hw : w.paired) :
    (w.RemoveSubConn sc).2.paired := by
  have heff := w.RemoveSubConn_effect sc
  cases h : w.subConnClosers.index sc with
  | none =>
    rw [(heff.2.1 h).2]
    exact hw
  | some c =>
    intro k hk
    by_cases hks : k = sc
    · subst hks
      exact ⟨(heff.1 c h).2.1, (heff.1 c h).2.2⟩
    · obtain ⟨hc, hp⟩ := heff.2.2.2.1 k hks
      rw [hc, hp]
      refine hw k ?_
      simpa [GoMap.index, hc] using hk

/-- Every state the wrapper can be in keeps the two maps in step. -/
theorem wrappedCC.Reachable.paired {w : wrappedCC} (h : w.Reachable) : w.paired := by
  induction h with
  | built => exact wrappedCC.paired_built
  | newSubConn w sc p close _ ih => exact wrappedCC.paired_record w sc p close ih
  | removeSubConn w sc _ ih => exact wrappedCC.paired_RemoveSubConn w sc ih

theorem wccTwoSubConns_paired : wccTwoSubConns.paired := by
  intro k hk
  by_cases h5 : k = 5
  · subst h5
    simp [wccTwoSubConns, GoMap.index] at hk
  · by_cases h6 : k = 6
    · subst h6
      simp [wccTwoSubConns, GoMap.index] at hk
    · simp [wccTwoSubConns, h5, h6]

/-- C11: for every wrapper state that keeps the two maps in step (every
state the code can be in does, see `wrappedCC.Reachable.paired`) and every
subconnection `sc`, `RemoveSubConn(sc)`: when a cleanup function `c` is
recorded for `sc`, calls it exactly once and before delegating (its calls
are `c`, then `ClientConn.RemoveSubConn(sc)`), and when none is recorded
only delegates; leaves `sc` without an entry in `subConnClosers` and in
`subConnProducers`; leaves the entries of every other subconnection in both
maps unchanged; and calls `ClientConn.RemoveSubConn(sc)` exactly once, as
its last call, in either case. -/
theorem removeSubConn_cleans_up_and_delegates (w : wrappedCC) (hw : w.paired) (sc : Nat) :
    (∀ c, w.subConnClosers.index sc = some c →
        (w.RemoveSubConn sc).1 = [.closer c, .removeSubConn sc]) ∧
      (w.subConnClosers.index sc = none → (w.RemoveSubConn sc).1 = [.removeSubConn sc]) ∧
      (w.RemoveSubConn sc).2.subConnClosers sc = none ∧
      (w.RemoveSubConn sc).2.subConnProducers sc = none ∧
      (∀ k, k ≠ sc →
        (w.RemoveSubConn sc).2.subConnClosers k = w.subConnClosers k ∧
          (w.RemoveSubConn sc).2.subConnProducers k = w.subConnProducers k) ∧
      (w.RemoveSubConn sc).1.count (.removeSubConn sc) = 1 ∧
      (w.RemoveSubConn sc).1.getLast? = some (.removeSubConn sc) := by
  have heff := w.RemoveSubConn_effect sc
  have habsent : (w.RemoveSubConn sc).2.subConnClosers sc = none ∧
      (w.RemoveSubConn sc).2.subConnProducers sc = none := by
    cases h : w.subConnClosers.index sc with
    | none => exact heff.2.2.1 (hw sc h).1 (hw sc h).2
    | some c => exact (heff.1 c h).2
  exact ⟨fun c h => (heff.1 c h).1, fun h => (heff.2.1 h).1, habsent.1, habsent.2,
    heff.2.2.2.1, heff.2.2.2.2.1, heff.2.2.2.2.2⟩

theorem removeSubConn_cleans_up_and_delegates_witness :
    wccTwoSubConns.paired ∧
      (wccTwoSubConns.RemoveSubConn 5).1 = [.closer 11, .removeSubConn 5] ∧
      (wccTwoSubConns.RemoveSubConn 5).2.subConnClosers 5 = none ∧
      (wccTwoSubConns.RemoveSubConn 5).2.subConnProducers 5 = none ∧
      (wccTwoSubConns.RemoveSubConn 5).2.subConnClosers 6 = some (some 12) ∧
      (wccTwoSubConns.RemoveSubConn 5).2.subConnProducers 6 = some (some 2) :=
  ⟨wccTwoSubConns_paired,
    (removeSubConn_cleans_up_and_delegates wccTwoSubConns wccTwoSubConns_paired 5).1 11
      (by decide),
    (removeSubConn_cleans_up_and_delegates wccTwoSubConns wccTwoSubConns_paired 5).2.2.1,
    (removeSubConn_cleans_up_and_delegates wccTwoSubConns wccTwoSubConns_paired 5).2.2.2.1,
    by decide, by decide⟩

end Health

namespace Testlib

/-! ## C12: `Replace` and `restore` -/

theorem directlyAssignable_self (t : GoType) : directlyAssignable t t = true := by
  simp [directlyAssignable]

theorem directlyAssignable_interface (x y : GoType) (hy : y.isInterface = true)
    (hx : x.isInterface = false) : directlyAssignable x y = false := by
  cases y <;> simp [GoType.isInterface] at hy
  cases x <;> simp [GoType.isInterface] at hx <;>
    simp [directlyAssignable, GoType.underlying]

/-- What `Set` stores for a value of type assignable to the variable's
type. -/
theorem Var.Set_assignable (v : Var) (d : Dyn) (h : assignable d.ty v.ty = true) :
    v.Set (some d) =
      .ok ⟨v.ty, some (if directlyAssignable d.ty v.ty then ⟨v.ty, d.rep⟩ else d)⟩ := by
  unfold Var.Set
  by_cases hd : directlyAssignable d.ty v.ty = true
  · simp [hd]
  · have hi : implements d.ty v.ty = true := by
      simpa [assignable, hd] using h
    simp [hd, hi]

/-- Storing in a well-typed variable the value it holds leaves it as it
is. -/
theorem Var.Set_own (v : Var) (old : Dyn) (hold : v.content = some old)
    (hwt : v.wellTyped) : v.Set (some old) = .ok v := by
  obtain ⟨ty, content⟩ := v
  simp only at hold
  subst hold
  simp only [Var.wellTyped] at hwt
  unfold Var.Set
  by_cases hi : ty.isInterface = true
  · simp only [hi, if_true] at hwt
    simp [directlyAssignable_interface old.ty ty hi hwt, implements, hi]
  · simp only [hi] at hwt
    have hty : old.ty = ty := by simpa using hwt
    obtain ⟨oty, orep⟩ := old
    simp only at hty
    subst hty
    simp [directlyAssignable_self]

/-- C12: `Replace` is a set-then-restore round trip.  For every well-typed
variable `*src` that holds a value `old`, and every `val` whose type can be
assigned to the variable's type (in particular every `val` of the
variable's own type): `Replace(src, val)` does not panic and leaves the
variable holding `val` (the value stored has the representation of `val`,
and is `val` itself when `val` has the variable's type or the variable is
of interface type); `restore()`, called next, does not panic and leaves the
variable exactly as it was, holding `old`. -/
theorem Replace_round_trip (src : Var) (old val : Dyn) (hold : src.content = some old)
    (hwt : src.wellTyped) (hval : assignable val.ty src.ty = true) :
    ∃ stored, replaceThenRestore src (some val) = .ok (⟨src.ty, some stored⟩, .ok src) ∧
      stored.rep = val.rep ∧ (val.ty = src.ty → stored = val) ∧
      (src.ty.isInterface = true → val.ty.isInterface = false → stored = val) := by
  have hset := src.Set_assignable val hval
  have hback : (⟨src.ty, some (if directlyAssignable val.ty src.ty then ⟨src.ty, val.rep⟩
      else val)⟩ : Var).Set (some old) = .ok src := by
    have h := src.Set_own old hold hwt
    obtain ⟨ty, content⟩ := src
    simp only at hold
    subst hold
    simpa [Var.Set] using h
  refine ⟨if directlyAssignable val.ty src.ty then ⟨src.ty, val.rep⟩ else val,
    ?_, ?_, ?_, ?_⟩
  · simp only [replaceThenRestore, Replace, ValueOf, Var.Interface, hset, hold]
    rw [hback]
  · split <;> rfl
  · intro hty
    obtain ⟨vty, vrep⟩ := val
    simp only at hty
    subst hty
    simp [directlyAssignable_self]
  · intro hi hv
    simp [directlyAssignable_interface val.ty src.ty hi hv]

theorem Replace_round_trip_int_witness :
    varInt.content = some (.int 123) ∧ varInt.wellTyped ∧
      assignable (Dyn.int 321).ty varInt.ty = true ∧
      ∃ stored, replaceThenRestore varInt (some (.int 321)) =
          .ok (⟨.int, some stored⟩, .ok varInt) ∧
        stored.rep = (Dyn.int 321).rep ∧ ((Dyn.int 321).ty = varInt.ty → stored = .int 321) :=
  ⟨rfl, rfl, by decide,
    (Replace_round_trip varInt (.int 123) (.int 321) rfl rfl (by decide)).elim
      fun stored h => ⟨stored, h.1, h.2.1, h.2.2.1⟩⟩

/-- The run of `TestReplaceInt`: `i` is 321 after `Replace(&i, 321)` and 123
after `restore()`. -/
theorem Replace_test_int :
    replaceThenRestore varInt (some (.int 321)) =
      .ok (⟨.int, some (.int 321)⟩, .ok varInt) :=
  rfl

/-- The run of `TestReplaceFunc`: `oldF()` is 321 after `Replace(&oldF,
newF)` and 123 after `restore()`. -/
theorem Replace_test_func :
    replaceThenRestore varFunc (some (.funcInt (some fun _ => 321))) =
        .ok (⟨.funcInt, some (.funcInt (some fun _ => 321))⟩, .ok varFunc) ∧
      (Dyn.funcInt (some fun _ => 321)).call = some 321 ∧
      (Dyn.funcInt (some fun _ => 123)).call = some 123 :=
  ⟨rfl, rfl, rfl⟩

/-- The run of `TestReplaceTypeError`: `Replace(&i, "")` panics in `Set`,
"value of type string is not assignable to type int". -/
theorem Replace_type_error :
    (replaceThenRestore varInt (some (.string ""))).toOption.isNone = true ∧
      (varInt.Set (ValueOf (some (.string "")))) = .error (.notAssignable .string .int) :=
  ⟨rfl, rfl⟩

/-- A value of a defined type `type F func() int` is assignable to a
variable of type `func() int`: `Replace` does not panic, the variable then
holds the function, and `restore()` puts the old function back. -/
theorem Replace_defined_func_type :
    replaceThenRestore varFunc (some ⟨.defined 1 .funcInt, .func (some fun _ => 321)⟩) =
      .ok (⟨.funcInt, some (.funcInt (some fun _ => 321))⟩, .ok varFunc) :=
  rfl

/-- A variable `var x interface{} = 5` takes a value of any type:
`Replace(&x, "s")` does not panic and `restore()` puts `5` back. -/
theorem Replace_interface_variable :
    replaceThenRestore varInterfaceFive (some (.string "s")) =
      .ok (⟨.emptyInterface, some (.string "s")⟩, .ok varInterfaceFive) :=
  rfl

/-- Outside the condition of C12: a variable of interface type that holds
nil holds no value to restore.  For `var x interface{}`, `Replace(&x, 1)`
sets `x` to `1`, the saved original is the zero `reflect.Value`, and
`restore()` panics in `Set`. -/
theorem Replace_restore_panics_for_nil_interface :
    replaceThenRestore varNilInterface (some (.int 1)) =
      .ok (⟨.emptyInterface, some (.int 1)⟩, .error .setOnZeroValue) := by
  rfl

end Testlib
